import Mathlib

/-!
Verification of the ScenAgent mobile-automation orchestrator.

This file shallowly embeds the parts of the repository needed to settle the
frozen claims: the string cleaning and JSON handling of
services/action_service.py, the coordinate mapper of
services/coordinate_service.py, the execution-state store of
core/state/state_manager.py, the execution chain of
core/chains/execution_chain.py, the reflection chain and UI-tree stagnation
checker of core/chains/reflection_chain.py, the screenshot service of
services/screenshot_service.py, the job-status transitions of web/server.py,
and the outer step loop of core/orchestration/task_orchestrator.py.

Python machine integers are modelled as Int/Nat; Python float arithmetic on
the small decimal values used by the code is modelled exactly over Rat, with
truncation toward zero for int(). Python str values are modelled as Lean
String or List Char. Dictionaries are modelled as association lists in
insertion order, matching CPython dict semantics.
-/

namespace ScenAgent

/-! ### Python string primitives -/

/-- The opening-brace character, written numerically. -/
def lbrace : Char := Char.ofNat 123

/-- The closing-brace character, written numerically. -/
def rbrace : Char := Char.ofNat 125

/-- Python str.strip() whitespace set (ASCII fragment). -/
def isPyWs (c : Char) : Bool :=
  c = ' ' || c = '\t' || c = '\n' || c = '\r' || c = Char.ofNat 11 || c = Char.ofNat 12

/-- Python str.strip(): drop leading and trailing whitespace. -/
def pyStrip (l : List Char) : List Char :=
  ((l.dropWhile isPyWs).reverse.dropWhile isPyWs).reverse

/-- String-level wrapper for pyStrip, modelling s.strip(). -/
def pyStripS (s : String) : String :=
  String.mk (pyStrip s.data)

/-- Python substring membership test (the `in` operator on str). -/
def containsSub : List Char → List Char → Bool
  | [], needle => needle.isEmpty
  | c :: t, needle => needle.isPrefixOf (c :: t) || containsSub t needle

/-- String-level wrapper for containsSub. -/
def containsSubS (s needle : String) : Bool := containsSub s.data needle.data

/-- Python str.replace(old, new): replace all non-overlapping occurrences,
scanning left to right.  old is assumed nonempty (as in the source). -/
def pyReplaceF : Nat → List Char → List Char → List Char → List Char
  | 0, l, _, _ => l
  | _ + 1, [], _, _ => []
  | fuel + 1, c :: t, old, new =>
    if old ≠ [] ∧ old.isPrefixOf (c :: t) then
      new ++ pyReplaceF fuel ((c :: t).drop old.length) old new
    else
      c :: pyReplaceF fuel t old new

/-- Entry point with enough fuel: every step consumes at least one
character when old is nonempty. -/
def pyReplace (l old new : List Char) : List Char :=
  pyReplaceF l.length l old new

/-! ### JSON values

Python objects produced by json.loads and consumed by json.dumps are
modelled by a mutual inductive: JValue for values, JArray for lists,
JFields for dicts (association lists in insertion order, as in CPython).
Floats are modelled as exact decimals (integer part and fraction digits);
negative decimals never occur in the modelled data. -/

mutual

inductive JValue where
  | jnull
  | jbool (b : Bool)
  | jint (n : Int)
  | jdec (ip : Nat) (frac : List Nat)
  | jstr (s : List Char)
  | jarr (items : JArray)
  | jobj (fields : JFields)

inductive JArray where
  | anil
  | acons (v : JValue) (tl : JArray)

inductive JFields where
  | fnil
  | fcons (k : List Char) (v : JValue) (tl : JFields)

end

/-- Lowercase hex digit for \uXXXX escapes produced by json.dumps. -/
def escHex (n : Nat) : Char := if n < 10 then Char.ofNat (48 + n) else Char.ofNat (87 + n)

/-- Escape one character as json.dumps (ensure_ascii=False) does. -/
def escChar (c : Char) : List Char :=
  if c = '"' then ['\\', '"']
  else if c = '\\' then ['\\', '\\']
  else if c = '\n' then ['\\', 'n']
  else if c = '\r' then ['\\', 'r']
  else if c = '\t' then ['\\', 't']
  else if c = Char.ofNat 8 then ['\\', 'b']
  else if c = Char.ofNat 12 then ['\\', 'f']
  else if c.toNat < 32 then ['\\', 'u', '0', '0', escHex (c.toNat / 16), escHex (c.toNat % 16)]
  else [c]

/-- Escape a whole string body. -/
def escapeChars : List Char → List Char
  | [] => []
  | c :: t => escChar c ++ escapeChars t

/-- Decimal digit character. -/
def digitCharOf (n : Nat) : Char := Char.ofNat (48 + n)

/-- Accumulating decimal rendering of a natural number. -/
def digitLoopN : Nat → Nat → List Char → List Char
  | 0, _, ds => ds
  | fuel + 1, n, ds =>
    if n < 10 then digitCharOf n :: ds
    else digitLoopN fuel (n / 10) (digitCharOf (n % 10) :: ds)

/-- Decimal digits of a natural number, most significant first. -/
def natDigits (n : Nat) : List Char := digitLoopN (n + 1) n []

/-- Decimal rendering of an integer (repr used by json.dumps for int). -/
def renderInt (i : Int) : List Char :=
  if i < 0 then '-' :: natDigits i.natAbs else natDigits i.toNat

/-- Comma-space separator emitted between elements when more follow. -/
def arrSep : JArray → List Char
  | .anil => []
  | .acons _ _ => [',', ' ']

/-- Comma-space separator emitted between fields when more follow. -/
def fieldSep : JFields → List Char
  | .fnil => []
  | .fcons _ _ _ => [',', ' ']

mutual

/-- Model of json.dumps(v, ensure_ascii=False) with default separators. -/
def renderJ : JValue → List Char
  | .jnull => "null".data
  | .jbool true => "true".data
  | .jbool false => "false".data
  | .jint i => renderInt i
  | .jdec ip f => natDigits ip ++ '.' :: f.map digitCharOf
  | .jstr s => '"' :: (escapeChars s ++ ['"'])
  | .jarr items => '[' :: (renderItems items ++ [']'])
  | .jobj fs => lbrace :: (renderFields fs ++ [rbrace])

/-- Render list elements separated by comma-space. -/
def renderItems : JArray → List Char
  | .anil => []
  | .acons v tl => renderJ v ++ arrSep tl ++ renderItems tl

/-- Render dict entries separated by comma-space. -/
def renderFields : JFields → List Char
  | .fnil => []
  | .fcons k v tl =>
    ('"' :: (escapeChars k ++ '"' :: ':' :: ' ' :: renderJ v)) ++ fieldSep tl ++ renderFields tl

end

/-- Unescape a simple backslash escape, as json.loads does. -/
def unescChar (c : Char) : Option Char :=
  if c = '"' then some '"'
  else if c = '\\' then some '\\'
  else if c = '/' then some '/'
  else if c = 'n' then some '\n'
  else if c = 'r' then some '\r'
  else if c = 't' then some '\t'
  else if c = 'b' then some (Char.ofNat 8)
  else if c = 'f' then some (Char.ofNat 12)
  else none

/-- Hex digit value for \uXXXX escapes. -/
def hexValC (c : Char) : Option Nat :=
  if '0' ≤ c ∧ c ≤ '9' then some (c.toNat - 48)
  else if 'a' ≤ c ∧ c ≤ 'f' then some (c.toNat - 87)
  else if 'A' ≤ c ∧ c ≤ 'F' then some (c.toNat - 55)
  else none

/-- Parse a JSON string body after the opening quote; acc holds the
characters read so far, reversed. -/
def parseStrBody : List Char → List Char → Option (List Char × List Char)
  | [], _ => none
  | c :: rest, acc =>
    if c = '"' then some (acc.reverse, rest)
    else if c = '\\' then
      match rest with
      | [] => none
      | e :: rest2 =>
        if e = 'u' then
          match rest2 with
          | h1 :: h2 :: h3 :: h4 :: rest3 =>
            match hexValC h1, hexValC h2, hexValC h3, hexValC h4 with
            | some a, some b, some c4, some d =>
              parseStrBody rest3 (Char.ofNat (((a * 16 + b) * 16 + c4) * 16 + d) :: acc)
            | _, _, _, _ => none
          | _ => none
        else
          match unescChar e with
          | some u => parseStrBody rest2 (u :: acc)
          | none => none
    else parseStrBody rest (c :: acc)

/-- Skip JSON whitespace. -/
def skipJWs : List Char → List Char
  | [] => []
  | c :: t => if c = ' ' || c = '\t' || c = '\n' || c = '\r' then skipJWs t else c :: t

/-- Split a leading run of decimal digits. -/
def spanDigits : List Char → List Char × List Char
  | [] => ([], [])
  | c :: t =>
    if c.isDigit then
      let p := spanDigits t
      (c :: p.1, p.2)
    else ([], c :: t)

/-- Value of a digit run. -/
def digitsToNat (ds : List Char) : Nat :=
  ds.foldl (fun acc c => acc * 10 + (c.toNat - 48)) 0

/-- Parse an unsigned JSON number (integer or decimal). -/
def parseNumAux (l : List Char) : Option (JValue × List Char) :=
  let p := spanDigits l
  if p.1 = [] then none
  else
    match p.2 with
    | c :: r2 =>
      if c = '.' then
        let q := spanDigits r2
        if q.1 = [] then none
        else some (.jdec (digitsToNat p.1) (q.1.map fun ch => ch.toNat - 48), q.2)
      else some (.jint (digitsToNat p.1), c :: r2)
    | [] => some (.jint (digitsToNat p.1), [])

/-- Parse a JSON number with optional leading minus (negative decimals are
outside the modelled fragment). -/
def parseNumber (l : List Char) : Option (JValue × List Char) :=
  match l with
  | [] => none
  | c :: rest =>
    if c = '-' then
      match parseNumAux rest with
      | some (.jint n, r) => some (.jint (-n), r)
      | _ => none
    else parseNumAux (c :: rest)

mutual

/-- Fuel-indexed JSON value parser modelling json.loads. -/
def parseJValue : Nat → List Char → Option (JValue × List Char)
  | 0, _ => none
  | fuel + 1, l =>
    match l with
    | [] => none
    | c :: rest =>
      if c = '"' then
        match parseStrBody rest [] with
        | some (s, r) => some (.jstr s, r)
        | none => none
      else if c = lbrace then parseJFields fuel (skipJWs rest)
      else if c = '[' then parseJItems fuel (skipJWs rest)
      else if "true".data.isPrefixOf (c :: rest) then some (.jbool true, (c :: rest).drop 4)
      else if "false".data.isPrefixOf (c :: rest) then some (.jbool false, (c :: rest).drop 5)
      else if "null".data.isPrefixOf (c :: rest) then some (.jnull, (c :: rest).drop 4)
      else parseNumber (c :: rest)

/-- Parse object fields after the opening brace (whitespace skipped). -/
def parseJFields : Nat → List Char → Option (JValue × List Char)
  | 0, _ => none
  | fuel + 1, l =>
    match l with
    | [] => none
    | c :: rest =>
      if c = rbrace then some (.jobj .fnil, rest)
      else if c = '"' then
        match parseStrBody rest [] with
        | none => none
        | some (k, r1) =>
          match skipJWs r1 with
          | [] => none
          | c2 :: r2 =>
            if c2 = ':' then
              match parseJValue fuel (skipJWs r2) with
              | none => none
              | some (v, r3) =>
                match skipJWs r3 with
                | [] => none
                | c3 :: r4 =>
                  if c3 = ',' then
                    match parseJFields fuel (skipJWs r4) with
                    | some (.jobj tl, r5) => some (.jobj (.fcons k v tl), r5)
                    | _ => none
                  else if c3 = rbrace then some (.jobj (.fcons k v .fnil), r4)
                  else none
            else none
      else none

/-- Parse array items after the opening bracket (whitespace skipped). -/
def parseJItems : Nat → List Char → Option (JValue × List Char)
  | 0, _ => none
  | fuel + 1, l =>
    match l with
    | [] => none
    | c :: rest =>
      if c = ']' then some (.jarr .anil, rest)
      else
        match parseJValue fuel (c :: rest) with
        | none => none
        | some (v, r1) =>
          match skipJWs r1 with
          | [] => none
          | c2 :: r2 =>
            if c2 = ',' then
              match parseJItems fuel (skipJWs r2) with
              | some (.jarr tl, r3) => some (.jarr (.acons v tl), r3)
              | _ => none
            else if c2 = ']' then some (.jarr (.acons v .anil), r2)
            else none

end

/-- Model of json.loads: parse one value and require only whitespace after. -/
def jsonLoads (l : List Char) : Option JValue :=
  match parseJValue (l.length + 1) (skipJWs l) with
  | some (v, r) => if skipJWs r = [] then some v else none
  | none => none

/-- ActionService.parse_action_string: strip code fences and the literal
substring json, strip whitespace, then json.loads; None on failure. -/
def parse_action_string (action_str : String) : Option JValue :=
  jsonLoads (pyStrip (pyReplace (pyReplace action_str.data "```".data []) "json".data []))

/-! ### JValue helpers (Python dict/truthiness semantics) -/

/-- Association-list lookup, modelling dict.get on parsed JSON. -/
def JFields.find : JFields → List Char → Option JValue
  | .fnil, _ => none
  | .fcons k v tl, key => if k = key then some v else JFields.find tl key

/-- dict.get(key) on a JSON value; None when not a dict or key absent. -/
def getField (v : JValue) (key : String) : Option JValue :=
  match v with
  | .jobj fs => JFields.find fs key.data
  | _ => none

/-- Python truthiness of a JSON value. -/
def jTruthy : JValue → Bool
  | .jnull => false
  | .jbool b => b
  | .jint n => decide (n ≠ 0)
  | .jdec ip f => decide (ip ≠ 0) || f.any (fun d => decide (d ≠ 0))
  | .jstr s => !s.isEmpty
  | .jarr .anil => false
  | .jarr _ => true
  | .jobj .fnil => false
  | .jobj _ => true

/-- Exact rational value of a fraction-digit list. -/
def fracValQ : List Nat → ℚ
  | [] => 0
  | d :: t => ((d : ℚ) + fracValQ t) / 10

/-- Python float(x) on the numeric values the code passes around. -/
def jnumToRat : JValue → Option ℚ
  | .jint n => some (n : ℚ)
  | .jdec ip f => some ((ip : ℚ) + fracValQ f)
  | .jbool b => some (if b then 1 else 0)
  | _ => none

/-- Python int(q): truncation toward zero. -/
def pyInt (q : ℚ) : Int := if 0 ≤ q then ⌊q⌋ else -⌊-q⌋

/-- Python int(x) after float(x) on a JSON value. -/
def jvToInt (v : JValue) : Option Int := (jnumToRat v).map pyInt

/-- Whether the action discriminator of a parsed action equals name. -/
def actIs (action_object : JValue) (name : String) : Bool :=
  match getField action_object "action" with
  | some (.jstr s) => s = name.data
  | _ => false

/-! ### Action-name constants

The module core/actions.py is imported by the source files but absent from
the repository snapshot; its constants are fixed by the action JSON grammar
of the spec. -/

/-- Modelled from the spec: core/actions.ANSWER, the answer discriminator. -/
def ANSWER : String := "answer"

/-- Modelled from the spec: core/actions.CLICK, the click discriminator. -/
def CLICK : String := "click"

/-- Modelled from the spec: core/actions.SWIPE, the swipe discriminator. -/
def SWIPE : String := "swipe"

/-- Modelled from the spec: core/actions.TYPE, the type discriminator. -/
def TYPE : String := "type"

/-- Modelled from the spec: core/actions.SYSTEM_BUTTON discriminator. -/
def SYSTEM_BUTTON : String := "system_button"

/-- Modelled from the spec: core/actions.WAIT, the wait discriminator. -/
def WAIT : String := "wait"

/-- Modelled from the spec: core/actions.DELETE, the delete discriminator. -/
def DELETE : String := "delete"

/-! ### The defined action variants (spec section 6, action JSON grammar) -/

/-- The answer action object. -/
def answerObj (text : List Char) : JValue :=
  .jobj (.fcons "action".data (.jstr ANSWER.data) (.fcons "text".data (.jstr text) .fnil))

/-- The click action object with a direct coordinate. -/
def clickCoordObj (x y : Int) : JValue :=
  .jobj (.fcons "action".data (.jstr CLICK.data)
    (.fcons "coordinate".data (.jarr (.acons (.jint x) (.acons (.jint y) .anil))) .fnil))

/-- The click action object with a mark-index string. -/
def clickMarkObj (mark : List Char) : JValue :=
  .jobj (.fcons "action".data (.jstr CLICK.data) (.fcons "coordinate".data (.jstr mark) .fnil))

/-- The type action object. -/
def typeObj (text : List Char) : JValue :=
  .jobj (.fcons "action".data (.jstr TYPE.data) (.fcons "text".data (.jstr text) .fnil))

/-- The delete action object. -/
def deleteObj (count : Int) : JValue :=
  .jobj (.fcons "action".data (.jstr DELETE.data) (.fcons "count".data (.jint count) .fnil))

/-- The wait action object. -/
def waitObj : JValue := .jobj (.fcons "action".data (.jstr WAIT.data) .fnil)

/-- The system_button action object. -/
def systemButtonObj (button : List Char) : JValue :=
  .jobj (.fcons "action".data (.jstr SYSTEM_BUTTON.data) (.fcons "button".data (.jstr button) .fnil))

/-- The direct-coordinate swipe action object. -/
def swipeCoordObj (x1 y1 x2 y2 : Int) (duration : JValue) : JValue :=
  .jobj (.fcons "action".data (.jstr SWIPE.data)
    (.fcons "coordinate".data (.jarr (.acons (.jint x1) (.acons (.jint y1) .anil)))
    (.fcons "coordinate2".data (.jarr (.acons (.jint x2) (.acons (.jint y2) .anil)))
    (.fcons "duration".data duration .fnil))))

/-- The mark-anchored swipe action object. -/
def swipeMarkObj (target direction : List Char) (distance duration : JValue) : JValue :=
  .jobj (.fcons "action".data (.jstr SWIPE.data)
    (.fcons "target".data (.jstr target)
    (.fcons "direction".data (.jstr direction)
    (.fcons "distance".data distance
    (.fcons "duration".data duration .fnil)))))

/-- Canonical decimal shape: what Python float repr can actually print. -/
def decWF (f : List Nat) : Prop :=
  f ≠ [] ∧ (∀ d ∈ f, d < 10) ∧ (f.getLast? ≠ some 0 ∨ f = [0])

/-- A numeric JSON value as produced by Python int/float serialization. -/
def numWF : JValue → Prop
  | .jint _ => True
  | .jdec _ f => decWF f
  | _ => False

/-- The defined action variants of the action grammar. -/
def isActionVariant (v : JValue) : Prop :=
  (∃ t, v = answerObj t) ∨
  (∃ x y, v = clickCoordObj x y) ∨
  (∃ m, v = clickMarkObj m) ∨
  (∃ t, v = typeObj t) ∨
  (∃ n, v = deleteObj n) ∨
  v = waitObj ∨
  (∃ b, v = systemButtonObj b) ∨
  (∃ x1 y1 x2 y2 d, numWF d ∧ v = swipeCoordObj x1 y1 x2 y2 d) ∨
  (∃ m dir ds du, numWF ds ∧ numWF du ∧ v = swipeMarkObj m dir ds du)

/-! ### CoordinateService (services/coordinate_service.py) -/

/-- CoordinateService.convert_coordinate: relative (0-1000) to absolute
pixels, int() truncation. -/
def convert_coordinate (coordinate : List Int) (screen_width screen_height : Int) : List Int :=
  match coordinate with
  | x :: y :: _ =>
    [pyInt ((x : ℚ) / 1000 * (screen_width : ℚ)), pyInt ((y : ℚ) / 1000 * (screen_height : ℚ))]
  | _ => coordinate

/-- CoordinateService.convert_to_relative: absolute pixels to relative
(0-1000), int() truncation. -/
def convert_to_relative (coordinate : List Int) (screen_width screen_height : Int) : List Int :=
  match coordinate with
  | x :: y :: _ =>
    [pyInt ((x : ℚ) / (screen_width : ℚ) * 1000), pyInt ((y : ℚ) / (screen_height : ℚ) * 1000)]
  | _ => coordinate

/-! ### ActionService (services/action_service.py) -/

/-- Device commands, each standing for the command string the concrete
device controller returns. -/
inductive DevCmd where
  | tap (x y : Int)
  | slide (x1 y1 x2 y2 : Int) (duration : Int)
  | drag (x1 y1 x2 y2 : Int) (duration : Int)
  | typeText (text : String)
  | delete (count : JValue)
  | back
  | home
  | wait

/-- Mutable ActionService fields. -/
structure ActionSvcState where
  perception_mode : String
  som_mapping : List (String × JValue)
  last_used_mark : Option String

/-- dict lookup in the SoM mapping. -/
def somLookup (m : List (String × JValue)) (k : String) : Option JValue :=
  (m.find? (fun p => p.1 == k)).map (·.2)

/-- Extract an (x, y) center from a SoM mapping value, as
_resolve_coordinate does. -/
def centerOfVal (v : JValue) : Option (Int × Int) :=
  match v with
  | .jobj fs =>
    match JFields.find fs "center".data with
    | some (.jarr (.acons a (.acons b _))) =>
      match jvToInt a, jvToInt b with
      | some x, some y => some (x, y)
      | _, _ => none
    | _ => none
  | .jarr (.acons a (.acons b _)) =>
    match jvToInt a, jvToInt b with
    | some x, some y => some (x, y)
    | _, _ => none
  | _ => none

/-- ActionService._resolve_coordinate.  Direct coordinates are modelled for
integer literals; the relative branch calls convert_coordinate. -/
def resolve_coordinate (st : ActionSvcState) (coord : JValue) (coor_type : String)
    (screen_width screen_height : Option Int) : Option (Int × Int) × ActionSvcState :=
  match coord with
  | .jstr s =>
    if st.perception_mode = "som" && (somLookup st.som_mapping (String.mk s)).isSome then
      let st' := { st with last_used_mark := some (String.mk s) }
      match somLookup st.som_mapping (String.mk s) with
      | some val => (centerOfVal val, st')
      | none => (none, st')
    else (none, st)
  | .jarr (.acons (.jint x) (.acons (.jint y) _)) =>
    match screen_width, screen_height with
    | some w, some h =>
      if coor_type ≠ "abs" && decide (w ≠ 0) && decide (h ≠ 0) then
        match convert_coordinate [x, y] w h with
        | cx :: cy :: _ => (some (cx, cy), st)
        | _ => (none, st)
      else (some (x, y), st)
    | _, _ => (some (x, y), st)
  | _ => (none, st)

/-- ActionService._resolve_som_bounds. -/
def resolve_som_bounds (st : ActionSvcState) (mark : String) : Option (Int × Int × Int × Int) :=
  if st.perception_mode ≠ "som" then none
  else
    match somLookup st.som_mapping mark with
    | some (.jobj fs) =>
      match JFields.find fs "bounds".data with
      | some (.jarr (.acons (.jarr (.acons a (.acons b .anil)))
          (.acons (.jarr (.acons c (.acons d .anil))) .anil))) =>
        match jvToInt a, jvToInt b, jvToInt c, jvToInt d with
        | some left, some top, some right, some bottom =>
          if right ≤ left || bottom ≤ top then none
          else some (left, top, right, bottom)
        | _, _, _, _ => none
      | _ => none
    | _ => none

/-- ActionService._compute_swipe_points_from_target, bounds branch and
whole-screen fallback.  Python // on the positive quantities involved
agrees with Int division; int() on them agrees with the rational floor. -/
def compute_swipe_points (bounds : Option (Int × Int × Int × Int))
    (direction_norm : String) (dist : ℚ) (screen_width screen_height : Option Int) :
    Option ((Int × Int) × (Int × Int)) :=
  match bounds with
  | some (left, top, right, bottom) =>
    let w := right - left
    let h := bottom - top
    let margin_x := max 10 (pyInt ((w : ℚ) / 10))
    let margin_y := max 10 (pyInt ((h : ℚ) / 10))
    let usable_w := max 1 (w - 2 * margin_x)
    let usable_h := max 1 (h - 2 * margin_y)
    let min_px : Int := 50
    if direction_norm = "up" then
      let x := left + w / 2
      let start_y := top + margin_y + pyInt (8 / 10 * (usable_h : ℚ))
      let swipe_len := max min_px (pyInt (dist * (usable_h : ℚ)))
      some ((x, start_y), (x, max (top + margin_y) (start_y - swipe_len)))
    else if direction_norm = "down" then
      let x := left + w / 2
      let start_y := top + margin_y + pyInt (2 / 10 * (usable_h : ℚ))
      let swipe_len := max min_px (pyInt (dist * (usable_h : ℚ)))
      some ((x, start_y), (x, min (bottom - margin_y) (start_y + swipe_len)))
    else if direction_norm = "left" then
      let y := top + h / 2
      let start_x := left + margin_x + pyInt (8 / 10 * (usable_w : ℚ))
      let swipe_len := max min_px (pyInt (dist * (usable_w : ℚ)))
      some ((start_x, y), (max (left + margin_x) (start_x - swipe_len), y))
    else if direction_norm = "right" then
      let y := top + h / 2
      let start_x := left + margin_x + pyInt (2 / 10 * (usable_w : ℚ))
      let swipe_len := max min_px (pyInt (dist * (usable_w : ℚ)))
      some ((start_x, y), (min (right - margin_x) (start_x + swipe_len), y))
    else none
  | none =>
    match screen_width, screen_height with
    | some w, some h =>
      if decide (w ≠ 0) && decide (h ≠ 0) then
        let min_px : Int := 200
        if direction_norm = "up" then
          let start := (w / 2, pyInt ((h : ℚ) * 3 / 4))
          some (start, (w / 2, max 0 (start.2 - max min_px (pyInt (dist * (h : ℚ) / 2)))))
        else if direction_norm = "down" then
          let start := (w / 2, pyInt ((h : ℚ) / 4))
          some (start, (w / 2, min (h - 1) (start.2 + max min_px (pyInt (dist * (h : ℚ) / 2)))))
        else if direction_norm = "left" then
          let start := (pyInt ((w : ℚ) * 4 / 5), h / 2)
          some (start, (max 0 (start.1 - max min_px (pyInt (dist * (w : ℚ) / 2))), h / 2))
        else if direction_norm = "right" then
          let start := (pyInt ((w : ℚ) / 5), h / 2)
          some (start, (min (w - 1) (start.1 + max min_px (pyInt (dist * (w : ℚ) / 2))), h / 2))
        else none
      else none
    | _, _ => none

/-- Python str.lower() restricted to ASCII. -/
def pyLower (s : String) : String :=
  String.mk (s.data.map fun c => if 'A' ≤ c ∧ c ≤ 'Z' then Char.ofNat (c.toNat + 32) else c)

/-- The coordinate-pair tail of the swipe branch of execute_action. -/
def execute_swipe_coords (st : ActionSvcState) (action_object : JValue)
    (coor_type : String) (screen_width screen_height : Option Int) (duration : Int) :
    Option DevCmd × ActionSvcState :=
  match getField action_object "coordinate", getField action_object "coordinate2" with
  | some c1, some c2 =>
    if jTruthy c1 && jTruthy c2 then
      let (r1, stA) := resolve_coordinate st c1 coor_type screen_width screen_height
      let (r2, stB) := resolve_coordinate stA c2 coor_type screen_width screen_height
      match r1, r2 with
      | some (x1, y1), some (x2, y2) =>
        if duration ≥ 1000 then (some (.drag x1 y1 x2 y2 duration), stB)
        else (some (.slide x1 y1 x2 y2 duration), stB)
      | _, _ => (none, stB)
    else (none, st)
  | _, _ => (none, st)

/-- The swipe branch of execute_action. -/
def execute_swipe (st : ActionSvcState) (action_object : JValue)
    (coor_type : String) (screen_width screen_height : Option Int) :
    Option DevCmd × ActionSvcState :=
  match (match getField action_object "duration" with
         | none => some ((1 : ℚ) / 2)
         | some v => jnumToRat v) with
  | none => (none, st)
  | some dq =>
    let duration := pyInt (dq * 1000)
    let target := getField action_object "target"
    let direction := getField action_object "direction"
    let distance := (getField action_object "distance").getD (.jdec 0 [6])
    let dist0 := (jnumToRat distance).getD (3 / 5)
    let dist := max (1 / 10) (min (9 / 10) dist0)
    if (target.map jTruthy).getD false && (direction.map jTruthy).getD false then
      let st1 :=
        match target with
        | some (.jstr ts) =>
          if st.perception_mode = "som" && (somLookup st.som_mapping (String.mk ts)).isSome then
            { st with last_used_mark := some (String.mk ts) }
          else st
        | _ => st
      let bounds :=
        match target with
        | some (.jstr ts) => resolve_som_bounds st1 (String.mk ts)
        | _ => none
      let dirStr :=
        match direction with
        | some (.jstr ds) => pyLower (pyStripS (String.mk ds))
        | _ => ""
      match compute_swipe_points bounds dirStr dist screen_width screen_height with
      | some ((x1, y1), (x2, y2)) =>
        if duration ≥ 1000 then (some (.drag x1 y1 x2 y2 duration), st1)
        else (some (.slide x1 y1 x2 y2 duration), st1)
      | none => execute_swipe_coords st1 action_object coor_type screen_width screen_height duration
    else execute_swipe_coords st action_object coor_type screen_width screen_height duration

/-- ActionService.execute_action: dispatch a parsed action object to the
device controller; None when nothing was executed. -/
def execute_action (st : ActionSvcState) (action_object : JValue)
    (coor_type : String) (screen_width screen_height : Option Int) :
    Option DevCmd × ActionSvcState :=
  if actIs action_object ANSWER then (none, st)
  else
    let st := { st with last_used_mark := none }
    if actIs action_object CLICK then
      match getField action_object "coordinate" with
      | some coord =>
        if jTruthy coord then
          let (c, st') := resolve_coordinate st coord coor_type screen_width screen_height
          match c with
          | some (x, y) => (some (.tap x y), st')
          | none => (none, st')
        else (none, st)
      | none => (none, st)
    else if actIs action_object SWIPE then
      execute_swipe st action_object coor_type screen_width screen_height
    else if actIs action_object TYPE then
      match getField action_object "text" with
      | some (.jstr s) => if !s.isEmpty then (some (.typeText (String.mk s)), st) else (none, st)
      | _ => (none, st)
    else if actIs action_object DELETE then
      (some (.delete ((getField action_object "count").getD (.jint 1))), st)
    else if actIs action_object SYSTEM_BUTTON then
      match getField action_object "button" with
      | some (.jstr b) =>
        if b = "Back".data then (some .back, st)
        else if b = "Home".data then (some .home, st)
        else (none, st)
      | _ => (none, st)
    else if actIs action_object WAIT then (some .wait, st)
    else (none, st)

/-! ### Execution state (core/state/state_schema.py, state_manager.py) -/

/-- ExecutionState: the execution record of the state store. -/
structure ExecutionState where
  action_history : List JValue
  summary_history : List String
  last_action : JValue
  last_summary : String
  last_action_thought : String
  action_outcomes : List String
  error_descriptions : List String

/-- Fresh ExecutionState (pydantic defaults: empty lists, empty dict). -/
def ExecutionState.init : ExecutionState :=
  ⟨[], [], .jobj .fnil, "", "", [], []⟩

/-- StateManager.append_action: push one entry onto all four sequences. -/
def append_action (st : ExecutionState) (action : JValue)
    (summary outcome error_description : String) : ExecutionState :=
  { st with
    action_history := st.action_history ++ [action],
    summary_history := st.summary_history ++ [summary],
    action_outcomes := st.action_outcomes ++ [outcome],
    error_descriptions := st.error_descriptions ++ [error_description] }

/-- StateManager.set_last_action: summary and thought only overwrite when
nonempty (Python truthiness guards). -/
def set_last_action (st : ExecutionState) (action : JValue)
    (summary thought : String) : ExecutionState :=
  { st with
    last_action := action,
    last_summary := if summary ≠ "" then summary else st.last_summary,
    last_action_thought := if thought ≠ "" then thought else st.last_action_thought }

/-- StateManager.check_error_threshold over the outcome history. -/
def check_error_threshold (st : ExecutionState) (threshold : Nat) : Bool :=
  if st.action_outcomes.length ≥ threshold then
    let latest := st.action_outcomes.drop (st.action_outcomes.length - threshold)
    (latest.countP fun o => o = "B" || o = "C" || o = "N") = threshold
  else false

/-- The state-manager operations that can touch the execution record. -/
inductive ExecOp where
  | append (action : JValue) (summary outcome error_description : String)
  | setLast (action : JValue) (summary thought : String)

/-- Apply one state-manager operation. -/
def ExecOp.apply (st : ExecutionState) : ExecOp → ExecutionState
  | .append a s o e => append_action st a s o e
  | .setLast a s t => set_last_action st a s t

/-- The four execution sequences have equal length. -/
def execSeqLenInv (st : ExecutionState) : Prop :=
  st.action_history.length = st.summary_history.length ∧
  st.action_history.length = st.action_outcomes.length ∧
  st.action_history.length = st.error_descriptions.length

/-! ### Execution chain (core/chains/execution_chain.py) -/

/-- The three sections extracted from the executor response. -/
structure ExecResp where
  thought : String
  action : String
  description : String

/-- The pseudo-action recorded on format or parse errors. -/
def invalidActionObj : JValue :=
  .jobj (.fcons "action".data (.jstr "invalid".data) .fnil)

/-- ExecutionChain.run, given the parsed executor response, the action
service state (SoM mapping already loaded) and the screen size.  Returns the
updated execution record, the parsed action object handed back to the
orchestrator, and the device command that was executed (None when the device
was not touched). -/
def execution_chain_run (st : ExecutionState) (resp : ExecResp)
    (svc : ActionSvcState) (coor_type : String)
    (screen_width screen_height : Option Int) :
    ExecutionState × Option JValue × Option DevCmd :=
  let st0 := set_last_action st (.jobj .fnil) resp.description resp.thought
  if resp.thought = "" || resp.action = "" then
    let st1 := set_last_action st0 invalidActionObj resp.description ""
    (append_action st1 invalidActionObj resp.description "N"
      "invalid action format, do nothing.", none, none)
  else
    match parse_action_string resp.action with
    | none =>
      let st1 := set_last_action st0 invalidActionObj resp.description ""
      (append_action st1 invalidActionObj resp.description "N"
        "invalid action format, do nothing.", none, none)
    | some action_object =>
      if actIs action_object ANSWER then
        let st1 := set_last_action st0 action_object resp.description ""
        (append_action st1 action_object resp.description "S" "None",
          some action_object, none)
      else
        let r := execute_action svc action_object coor_type screen_width screen_height
        (set_last_action st0 action_object resp.description "",
          some action_object, r.1)

/-! ### Reflection chain and stagnation checker
(core/chains/reflection_chain.py) -/

/-- _UiTreeStagnationChecker._jaccard_similarity over token multisets. -/
def jaccard_similarity (tokens_a tokens_b : List String) : Option ℚ :=
  let A := tokens_a.toFinset
  let B := tokens_b.toFinset
  if A = ∅ ∧ B = ∅ then none
  else if A ∪ B = ∅ then none
  else some (((A ∩ B).card : ℚ) / ((A ∪ B).card : ℚ))

/-- _UiTreeStagnationChecker.confirm at the token level: similarity and the
confirmed flag (similarity at or above the threshold). -/
def stagnation_confirm (before_tokens after_tokens : List String)
    (threshold : ℚ) : Option ℚ × Option Bool :=
  if before_tokens = [] ∨ after_tokens = [] then (none, none)
  else
    match jaccard_similarity before_tokens after_tokens with
    | none => (none, none)
    | some s => (some s, some (decide (threshold ≤ s)))

/-- Outcome-letter extraction of ReflectionChain.run: substring tests in
order S, B, C; anything else raises ValueError (None). -/
def parseOutcomeLetter (outcome : String) : Option String :=
  if containsSubS outcome "S" then some "S"
  else if containsSubS outcome "B" then some "B"
  else if containsSubS outcome "C" then some "C"
  else none

/-- Final outcome of ReflectionChain.run: the stagnation checker remaps a C
verdict to N when confirmed, to S when not confirmed, and leaves it at C
when the checker produced no verdict. -/
def reflectionChainOutcome (outcome : String) (enabled : Bool)
    (before_tokens after_tokens : List String) (threshold : ℚ) : Option String :=
  match parseOutcomeLetter outcome with
  | none => none
  | some letter =>
    if letter = "C" && enabled then
      match (stagnation_confirm before_tokens after_tokens threshold).2 with
      | some true => some "N"
      | some false => some "S"
      | none => some letter
    else some letter

/-- ReflectionChain.run effect on the execution record: append the last
action with the final outcome; None models the ValueError on an
unrecognized outcome. -/
def reflection_chain_run (exec : ExecutionState) (outcome : String)
    (enabled : Bool) (before_tokens after_tokens : List String)
    (threshold : ℚ) (error_description : String) : Option ExecutionState :=
  match reflectionChainOutcome outcome enabled before_tokens after_tokens threshold with
  | none => none
  | some finalOutcome =>
    some (append_action exec exec.last_action exec.last_summary finalOutcome error_description)

/-! ### Screenshot service (services/screenshot_service.py) -/

/-- Mutable ScreenshotService fields relevant to SoM processing. -/
structure ScreenshotSvcState where
  perception_mode : String
  som_available : Bool
  current_som_mapping : List (String × JValue)

/-- Environment outcome of one _process_som call. -/
inductive SomProcessOutcome where
  | xmlMissing
  | procError
  | procOk (marked_path : String) (mapping : List (String × JValue))

/-- ScreenshotService._process_som: falls back to the original screenshot
on a missing XML or on any exception; the stored mapping is only replaced
on success. -/
def process_som (st : ScreenshotSvcState) (screenshot_path : String)
    (outcome : SomProcessOutcome) : ScreenshotSvcState × String :=
  match outcome with
  | .xmlMissing => (st, screenshot_path)
  | .procError => (st, screenshot_path)
  | .procOk marked mapping =>
    ({ st with current_som_mapping := mapping }, marked)

/-- ScreenshotService.take_screenshot: retry until the device produced the
file, then optionally run SoM processing. attempts lists, per retry,
whether get_screenshot returned true and the file exists. -/
def take_screenshot (st : ScreenshotSvcState) (path : String)
    (attempts : List Bool) (som_outcome : SomProcessOutcome) :
    ScreenshotSvcState × Option String :=
  match attempts with
  | [] => (st, none)
  | ok :: rest =>
    if ok then
      if st.perception_mode = "som" && st.som_available then
        let r := process_som st path som_outcome
        (r.1, some r.2)
      else (st, some path)
    else take_screenshot st path rest som_outcome

/-! ### Job service status transitions (web/server.py) -/

/-- Job lifecycle states of the job store. -/
inductive JobStatus where
  | queued
  | running
  | success
  | failed
  | stopped
deriving DecidableEq

/-- run_job entry: unconditionally marks the job running (line 595). -/
def run_job_start_status (_prev : JobStatus) : JobStatus := .running

/-- run_job finalization (lines 701-706): keep stopped, otherwise failed on
error and success otherwise.  current is the job-store status read at
finalization time (None when the job record is gone). -/
def run_job_finalize_status (current : Option JobStatus) (error : Bool) : JobStatus :=
  if current = some .stopped then .stopped
  else if error then .failed else .success

/-- worker_loop exception handler (line 764): unconditionally failed. -/
def worker_loop_exception_status (_prev : JobStatus) : JobStatus := .failed

/-- The status-writing steps of one job's lifetime, in the order they
happen: run_job's entry write, api_stop's terminal write, run_job's
finalization, and the worker-loop exception handler. -/
inductive JobEvent where
  | runStart
  | stop
  | finalize (error : Bool)
  | workerException

/-- Effect of one lifecycle step on the stored status.  api_stop returns
without writing when the status is already terminal (server.py line 798)
and writes stopped otherwise; the other three steps are the modelled
run_job and worker_loop writes. -/
def applyJobEvent (st : JobStatus) : JobEvent → JobStatus
  | .runStart => run_job_start_status st
  | .stop => if st = .success ∨ st = .failed ∨ st = .stopped then st else .stopped
  | .finalize error => run_job_finalize_status (some st) error
  | .workerException => worker_loop_exception_status st

/-! ### Task orchestrator (core/orchestration/task_orchestrator.py) -/

/-- The finalized task_results.json fields the claims talk about. -/
structure ResultsFile where
  task_status : Option String
  test_status_report : Option String
  step_limit : Option ℚ

/-- A task_results.json that has not been written yet reads as empty. -/
def ResultsFile.empty : ResultsFile := ⟨none, none, none⟩

/-- The write of the planner thought into test_status_report performed in
the Finished branch (run, lines 231-246). -/
def write_finished_report (f : Option ResultsFile) (report : String) : ResultsFile :=
  { f.getD .empty with test_status_report := some report }

/-- TaskOrchestrator._save_final_results: step_limit 0 means completed; the
stored test_status_report is kept when present, otherwise a sentinel is
chosen by limit_hit. -/
def save_final_results (f : Option ResultsFile) (step_limit : ℚ) : ResultsFile :=
  let existing := f.getD .empty
  let report0 := existing.test_status_report.getD ""
  let limit_hit := decide (step_limit ≠ 0)
  let task_status := if limit_hit then "Not Completed" else "Completed"
  let report :=
    if report0 = "" then
      if limit_hit then "Reached maximum execution limit" else "Finished within step limit"
    else report0
  ⟨some task_status, some report, some step_limit⟩

/-- The Finished-plan test of run, line 228: trimmed plan contains
"Finished" and is shorter than 15 characters. -/
def finishedCheckB (plan : String) : Bool :=
  containsSubS (pyStripS plan) "Finished" && decide ((pyStripS plan).length < 15)

/-- TaskOrchestrator construction parameters used by the loop. -/
structure OrchParams where
  coor_type : String
  perception_mode : String
  enable_tree_stagnation_check : Bool
  tree_similarity_threshold : ℚ
  err_to_planner_thresh : Nat

/-- Oracle for everything one loop iteration obtains from the outside
world: screenshots, image size, the three model invocations, and the SoM
mapping in force for the step. -/
structure StepEnv where
  shot1 : Option String
  imageSize : Option (Int × Int)
  planThought : String
  plan : String
  execResp : ExecResp
  somMapping : List (String × JValue)
  shot2 : Option String
  reflOutcome : String
  reflErrorDescription : String
  reflBeforeTokens : List String
  reflAfterTokens : List String

/-- The loop-carried state of TaskOrchestrator.run. -/
structure LoopState where
  exec : ExecutionState
  plan : String
  resultsFile : Option ResultsFile
  image2 : Option String
  execRan : List Nat

/-- The observable outcome of a run: the final task_results.json and the
steps on which the execution chain was invoked; exn models an escaped
ValueError from the reflection chain. -/
inductive RunOut where
  | ok (file : ResultsFile) (execRan : List Nat)
  | exn

/-- The planner-skip decision of run, lines 191-195. -/
def plannerSkip (exec : ExecutionState) (thresh : Nat) : Bool :=
  !check_error_threshold exec thresh
    && jTruthy exec.last_action
    && actIs exec.last_action "invalid"

/-- The outer step loop of TaskOrchestrator.run over the remaining step
indices.  Mirrors, in order: screenshot reuse, size check, planner skip,
the Finished exit, the execution chain, the answer re-append, the post
screenshot, and the reflection chain. -/
def loopGo (P : OrchParams) (env : Nat → StepEnv) : List Nat → LoopState → RunOut
  | [], st =>
    .ok (match st.resultsFile with
         | none => save_final_results none 1
         | some f => f) st.execRan
  | i :: rest, st =>
    match (if i = 0 then (env i).shot1 else st.image2) with
    | none => .ok (save_final_results st.resultsFile 1) st.execRan
    | some _ =>
      match (env i).imageSize with
      | none => loopGo P env rest st
      | some wh =>
        let skip := plannerSkip st.exec P.err_to_planner_thresh
        let plan1 := if skip then st.plan else (env i).plan
        if finishedCheckB plan1 then
          let thought := if skip then "" else pyStripS (env i).planThought
          let f1 :=
            if thought = "" then st.resultsFile
            else some (write_finished_report st.resultsFile thought)
          .ok (save_final_results f1 0) st.execRan
        else
          let svc : ActionSvcState := ⟨P.perception_mode, (env i).somMapping, none⟩
          let ecr := execution_chain_run st.exec (env i).execResp svc P.coor_type
            (some wh.1) (some wh.2)
          let st2 : LoopState :=
            { st with plan := plan1, exec := ecr.1, execRan := st.execRan ++ [i] }
          match ecr.2.1 with
          | none => loopGo P env rest st2
          | some a =>
            let exec2 :=
              if actIs a ANSWER then
                append_action (set_last_action st2.exec a (env i).execResp.description "")
                  a (env i).execResp.description "S" "None"
              else st2.exec
            match (env i).shot2 with
            | none => .ok (save_final_results st2.resultsFile 1) st2.execRan
            | some img2 =>
              match reflection_chain_run exec2 (env i).reflOutcome
                  P.enable_tree_stagnation_check (env i).reflBeforeTokens
                  (env i).reflAfterTokens P.tree_similarity_threshold
                  (env i).reflErrorDescription with
              | none => .exn
              | some exec3 =>
                loopGo P env rest { st2 with exec := exec3, image2 := some img2 }

/-- The loop state at entry of TaskOrchestrator.run. -/
def initialLoopState : LoopState := ⟨ExecutionState.init, "", none, none, []⟩

/-- The continuation after a JSON value inside an action object: a
separator, a closer, or the end of input. -/
def sepHead : List Char → Prop
  | [] => True
  | c :: _ => c = ',' ∨ c = rbrace ∨ c = ']'

/-- A value whose rendering starts with a non-whitespace character and is
recovered by the parser with modest fuel. -/
def flatParses (v : JValue) : Prop :=
  (∀ X : List Char, skipJWs (renderJ v ++ X) = renderJ v ++ X) ∧
  ∀ (fuel : Nat) (rest : List Char), sepHead rest →
    parseJValue (fuel + 4) (renderJ v ++ rest) = some (v, rest)

/-- All field values of an object parse back flatly. -/
def FieldsFlat : JFields → Prop
  | .fnil => True
  | .fcons _ v tl => flatParses v ∧ FieldsFlat tl

/-- Number of fields. -/
def countF : JFields → Nat
  | .fnil => 0
  | .fcons _ _ tl => countF tl + 1

/-! ## Theorems -/

/-- Preservation half of the execution-sequence length invariant. -/
theorem execOp_preserves_lengths (st : ExecutionState) (op : ExecOp)
    (h : execSeqLenInv st) : execSeqLenInv (ExecOp.apply st op) := by
  cases op with
  | append a s o e =>
    simp only [ExecOp.apply, append_action, execSeqLenInv, List.length_append,
      List.length_cons, List.length_nil] at h ⊢
    omega
  | setLast a s t =>
    simpa only [ExecOp.apply, set_last_action, execSeqLenInv] using h

/-- C5: at every quiescent point - that is, after any sequence of complete
state-store operations starting from the fresh state - the four execution
sequences action_history, summary_history, action_outcomes and
error_descriptions have equal length, and every operation that can mutate
them preserves this invariant. -/
theorem execution_sequences_equal_length :
    (∀ ops : List ExecOp, execSeqLenInv (ops.foldl ExecOp.apply ExecutionState.init)) ∧
    (∀ (st : ExecutionState) (op : ExecOp),
      execSeqLenInv st → execSeqLenInv (ExecOp.apply st op)) := by
  constructor
  · intro ops
    have main : ∀ (l : List ExecOp) (st : ExecutionState), execSeqLenInv st →
        execSeqLenInv (l.foldl ExecOp.apply st) := by
      intro l
      induction l with
      | nil => intro st h; simpa using h
      | cons op tl ih =>
        intro st h
        exact ih _ (execOp_preserves_lengths st op h)
    exact main ops _ ⟨rfl, rfl, rfl⟩
  · exact execOp_preserves_lengths

/-- C5 witness: the invariant is preserved across a concrete append on the
fresh state. -/
theorem execution_sequences_equal_length_witness :
    execSeqLenInv (ExecOp.apply ExecutionState.init
      (.append invalidActionObj "desc" "N" "err")) :=
  execution_sequences_equal_length.2 _ _
    (execution_sequences_equal_length.1 [])

/-- C6 counterexample: the worker-level exception handler (server.py line
764) is one of the finalization steps named by the claim, and it overwrites
a stopped status with failed. -/
theorem stopped_overwritten_by_worker_exception :
    worker_loop_exception_status .stopped = .failed ∧
    worker_loop_exception_status .stopped ≠ .stopped := by
  exact ⟨rfl, by decide⟩

/-- run_job's finalization leaves a stopped status stopped, whichever way
the runner ended. -/
theorem run_job_finalize_keeps_stopped :
    ∀ error : Bool, run_job_finalize_status (some .stopped) error = .stopped := by
  intro e
  simp [run_job_finalize_status]

/-- C6 amended: once a job's status has been set to stopped, any sequence
of later finalization steps of run_job itself (natural completion or
runner failure, each reading the job store as it then stands) leaves the
status stopped - stop wins the race with natural completion, which is the
situation when the stop is issued while the runner subprocess is active.
The guarantee does not extend to the other steps named by the original
claim: the worker-level exception handler overwrites stopped with failed,
and a stop issued while the job is still queued is overwritten to running
when run_job later dequeues and starts it (line 596), after which its
finalization records success or failed - the second conjunct exhibits that
trace. -/
theorem stopped_persists_through_finalizations :
    (∀ post : List JobEvent, (∀ e ∈ post, ∃ b, e = .finalize b) →
      List.foldl applyJobEvent .stopped post = .stopped) ∧
    List.foldl applyJobEvent .queued [.stop, .runStart, .finalize false] = .success := by
  constructor
  · intro post
    induction post with
    | nil => intro _; rfl
    | cons e tl ih =>
      intro h
      obtain ⟨b, rfl⟩ := h e (by simp)
      rw [List.foldl_cons,
        show applyJobEvent .stopped (.finalize b) = .stopped from
          run_job_finalize_keeps_stopped b]
      exact ih fun e' he' => h e' (by simp [he'])
  · rfl

/-- C6 amended witness: a stop during the run survives a failure
finalization and a success finalization read back to back. -/
theorem stopped_persists_through_finalizations_witness :
    List.foldl applyJobEvent .stopped [.finalize true, .finalize false] = .stopped :=
  stopped_persists_through_finalizations.1 [.finalize true, .finalize false]
    (by
      intro e he
      simp only [List.mem_cons, List.not_mem_nil, or_false] at he
      rcases he with rfl | rfl
      · exact ⟨true, rfl⟩
      · exact ⟨false, rfl⟩)

/-- C10: in som perception mode, when the device screenshot succeeds but
SoM processing fails (missing sibling XML or an exception), take_screenshot
returns the raw screenshot path rather than None, and the whole service
state - in particular the stored SoM mapping - is left unchanged. -/
theorem som_failure_returns_raw_path (st : ScreenshotSvcState) (path : String)
    (attempts : List Bool) (outcome : SomProcessOutcome)
    (hmode : st.perception_mode = "som") (hav : st.som_available = true)
    (hsucc : attempts.any id = true)
    (hfail : outcome = .xmlMissing ∨ outcome = .procError) :
    take_screenshot st path attempts outcome = (st, some path) := by
  induction attempts with
  | nil => simp at hsucc
  | cons a rest ih =>
    cases a with
    | false =>
      simp only [List.any_cons, id, Bool.false_or] at hsucc
      simpa [take_screenshot] using ih hsucc
    | true =>
      rcases hfail with hf | hf <;>
        simp [take_screenshot, hmode, hav, hf, process_som]

/-- C10 witness: a concrete som-mode state with a failing SoM pass. -/
theorem som_failure_returns_raw_path_witness :
    take_screenshot ⟨"som", true, [("3", .jint 7)]⟩ "shot.png" [false, true]
      .xmlMissing = (⟨"som", true, [("3", .jint 7)]⟩, some "shot.png") :=
  som_failure_returns_raw_path _ _ _ _ rfl rfl (by decide) (Or.inl rfl)

/-- C7 counterexample: a system_button action with button Enter performs no
device operation and execute_action returns None, although the claim
demands a dispatched command for Enter as well (execute_action handles only
Back and Home, action_service.py lines 269-274). -/
theorem system_button_enter_returns_none :
    (execute_action ⟨"vllm", [], none⟩ (systemButtonObj "Enter".data)
      "abs" (some 1080) (some 2340)).1 = none := by
  rfl

/-- C7 amended: for every system_button action whose button field is Back
or Home, execute_action dispatches the corresponding device operation
(back resp. home) and returns the executed command, which is non-null; a
button field of Enter falls through and returns None. -/
theorem system_button_back_home_dispatch (st : ActionSvcState)
    (coor_type : String) (w h : Option Int) (b : List Char)
    (hb : b = "Back".data ∨ b = "Home".data) :
    (execute_action st (systemButtonObj b) coor_type w h).1 =
      some (if b = "Back".data then DevCmd.back else DevCmd.home) ∧
    (execute_action st (systemButtonObj b) coor_type w h).1 ≠ none := by
  have hrun : (execute_action st (systemButtonObj b) coor_type w h).1 =
      some (if b = "Back".data then DevCmd.back else DevCmd.home) := by
    rcases hb with hb | hb <;> subst hb <;>
      simp [execute_action, actIs, systemButtonObj, getField, JFields.find,
        ANSWER, CLICK, SWIPE, TYPE, DELETE, SYSTEM_BUTTON]
  exact ⟨hrun, by simp [hrun]⟩

/-- C7 amended witness: the Back button dispatches the back command. -/
theorem system_button_back_home_dispatch_witness :
    (execute_action ⟨"vllm", [], none⟩ (systemButtonObj "Back".data)
        "abs" (some 1080) (some 2340)).1 =
      some (if "Back".data = "Back".data then DevCmd.back else DevCmd.home) ∧
    (execute_action ⟨"vllm", [], none⟩ (systemButtonObj "Back".data)
        "abs" (some 1080) (some 2340)).1 ≠ none :=
  system_button_back_home_dispatch _ _ _ _ _ (Or.inl rfl)

/-- C3: when the reflector's outcome letter is C and the stagnation check
is enabled, the Jaccard similarity over the two token sets is computed and
the final outcome is N exactly when similarity is at or above the threshold
(equality counts as confirmed stagnation) and S when it is below; for
letters S and B the final outcome is the reflector's letter unchanged. -/
theorem reflection_stagnation_remap :
    (∀ (outcome : String) (a b : List String) (θ : ℚ),
        parseOutcomeLetter outcome = some "C" → a ≠ [] → b ≠ [] →
        ∃ s : ℚ, (stagnation_confirm a b θ).1 = some s ∧
          reflectionChainOutcome outcome true a b θ =
            some (if θ ≤ s then "N" else "S")) ∧
    (∀ (outcome : String) (enabled : Bool) (a b : List String) (θ : ℚ)
        (L : String), parseOutcomeLetter outcome = some L →
        (L = "S" ∨ L = "B") →
        reflectionChainOutcome outcome enabled a b θ = some L) := by
  constructor
  · intro outcome a b θ hC ha hb
    have hA : a.toFinset ≠ ∅ := by
      simpa [List.toFinset_eq_empty_iff] using ha
    have hB : b.toFinset ≠ ∅ := by
      simpa [List.toFinset_eq_empty_iff] using hb
    have hUnion : a.toFinset ∪ b.toFinset ≠ ∅ := by
      intro hu
      exact hA (Finset.union_eq_empty.mp hu).1
    have hjac : jaccard_similarity a b =
        some (((a.toFinset ∩ b.toFinset).card : ℚ) /
          ((a.toFinset ∪ b.toFinset).card : ℚ)) := by
      simp only [jaccard_similarity]
      rw [if_neg (by tauto), if_neg hUnion]
    have hconf : stagnation_confirm a b θ =
        (some (((a.toFinset ∩ b.toFinset).card : ℚ) /
          ((a.toFinset ∪ b.toFinset).card : ℚ)),
         some (decide (θ ≤ ((a.toFinset ∩ b.toFinset).card : ℚ) /
          ((a.toFinset ∪ b.toFinset).card : ℚ)))) := by
      simp only [stagnation_confirm]
      rw [if_neg (by tauto), hjac]
    refine ⟨_, by rw [hconf], ?_⟩
    simp only [reflectionChainOutcome, hC]
    rw [hconf]
    by_cases hθ : θ ≤ ((a.toFinset ∩ b.toFinset).card : ℚ) /
        ((a.toFinset ∪ b.toFinset).card : ℚ) <;> simp [hθ]
  · intro outcome enabled a b θ L hL hSB
    rcases hSB with h | h <;> subst h <;>
      simp [reflectionChainOutcome, hL]

/-- C3 witness: identical singleton token sets give similarity 1, at or
above the default threshold, so a C verdict is remapped to N. -/
theorem reflection_stagnation_remap_witness :
    ∃ s : ℚ, (stagnation_confirm ["tok"] ["tok"] (9 / 10)).1 = some s ∧
      reflectionChainOutcome "C" true ["tok"] ["tok"] (9 / 10) =
        some (if (9 : ℚ) / 10 ≤ s then "N" else "S") :=
  reflection_stagnation_remap.1 "C" ["tok"] ["tok"] (9 / 10) rfl
    (by decide) (by decide)

/-- int() on a quotient of naturals is plain natural division. -/
theorem pyInt_nat_div (a b : ℕ) :
    pyInt ((a : ℚ) / (b : ℚ)) = ((a / b : ℕ) : ℤ) := by
  have hnn : (0 : ℚ) ≤ (a : ℚ) / (b : ℚ) := by positivity
  unfold pyInt
  rw [if_pos hnn]
  have h2 : ⌊(a : ℚ) / (b : ℚ)⌋ = (⌊(a : ℚ) / (b : ℚ)⌋₊ : ℤ) := by
    rw [← Int.floor_toNat, Int.toNat_of_nonneg (Int.floor_nonneg.2 hnn)]
  rw [h2, Nat.floor_div_eq_div]

/-- One-dimensional round trip bound: quantizing to the 0-1000 grid and
back loses at most the grid pitch. -/
theorem nat_roundtrip_bounds (x W : ℕ) (hW : 0 < W) :
    1000 * x / W * W / 1000 ≤ x ∧
    x - 1000 * x / W * W / 1000 ≤ (W + 998) / 1000 := by
  have h1 : W * (1000 * x / W) + 1000 * x % W = 1000 * x := Nat.div_add_mod _ _
  have hr : 1000 * x % W < W := Nat.mod_lt _ hW
  rw [Nat.mul_comm W (1000 * x / W)] at h1
  generalize hA : 1000 * x / W * W = A at h1 ⊢
  generalize 1000 * x % W = r at h1 hr
  omega

/-- C8: for 0 <= x < W, 0 <= y < H with positive screen dimensions,
converting a pixel pair to model-relative (0-1000) form and back yields the
pair again within rounding: each recovered component is at most the
original and differs from it by no more than the quantization pitch
(W + 998) / 1000 resp. (H + 998) / 1000 - in particular by at most one
pixel whenever the dimension is at most 1000. -/
theorem coordinate_roundtrip (x y W H : ℕ) (hW : 0 < W) (hH : 0 < H)
    (hx : x < W) (hy : y < H) :
    ∃ x' y' : ℕ,
      convert_coordinate
        (convert_to_relative [(x : ℤ), (y : ℤ)] (W : ℤ) (H : ℤ)) (W : ℤ) (H : ℤ)
        = [(x' : ℤ), (y' : ℤ)] ∧
      x' ≤ x ∧ x - x' ≤ (W + 998) / 1000 ∧
      y' ≤ y ∧ y - y' ≤ (H + 998) / 1000 := by
  have hcast1 : ∀ a b : ℕ, ((a : ℤ) : ℚ) / ((b : ℤ) : ℚ) * 1000
      = ((1000 * a : ℕ) : ℚ) / ((b : ℕ) : ℚ) := by
    intro a b; push_cast; ring
  have hcast2 : ∀ a b : ℕ, ((a : ℤ) : ℚ) / 1000 * ((b : ℤ) : ℚ)
      = ((a * b : ℕ) : ℚ) / ((1000 : ℕ) : ℚ) := by
    intro a b; push_cast; ring
  have hrel : convert_to_relative [(x : ℤ), (y : ℤ)] (W : ℤ) (H : ℤ)
      = [((1000 * x / W : ℕ) : ℤ), ((1000 * y / H : ℕ) : ℤ)] := by
    simp only [convert_to_relative]
    rw [hcast1 x W, hcast1 y H, pyInt_nat_div, pyInt_nat_div]
  have habs : convert_coordinate
      [((1000 * x / W : ℕ) : ℤ), ((1000 * y / H : ℕ) : ℤ)] (W : ℤ) (H : ℤ)
      = [((1000 * x / W * W / 1000 : ℕ) : ℤ), ((1000 * y / H * H / 1000 : ℕ) : ℤ)] := by
    simp only [convert_coordinate]
    rw [hcast2 (1000 * x / W) W, hcast2 (1000 * y / H) H, pyInt_nat_div, pyInt_nat_div]
  refine ⟨1000 * x / W * W / 1000, 1000 * y / H * H / 1000, ?_, ?_, ?_, ?_, ?_⟩
  · rw [hrel, habs]
  · exact (nat_roundtrip_bounds x W hW).1
  · exact (nat_roundtrip_bounds x W hW).2
  · exact (nat_roundtrip_bounds y H hH).1
  · exact (nat_roundtrip_bounds y H hH).2

/-- C8 witness: a concrete 1080 by 2340 screen point. -/
theorem coordinate_roundtrip_witness :
    ∃ x' y' : ℕ,
      convert_coordinate
        (convert_to_relative [(123 : ℤ), (2000 : ℤ)] (1080 : ℤ) (2340 : ℤ))
        (1080 : ℤ) (2340 : ℤ) = [(x' : ℤ), (y' : ℤ)] ∧
      x' ≤ 123 ∧ 123 - x' ≤ (1080 + 998) / 1000 ∧
      y' ≤ 2000 ∧ 2000 - y' ≤ (2340 + 998) / 1000 := by
  have h := coordinate_roundtrip 123 2000 1080 2340 (by decide) (by decide)
    (by decide) (by decide)
  simpa using h

/-- C1: whenever the loop reaches a step whose screenshot and image size
are available and the plan in force after the planning phase passes the
Finished test (trimmed text contains "Finished" and is shorter than 15
characters), the outer step loop exits before running the execution chain
for that step - the list of executed steps is unchanged - and the run
finalizes with task_results recording task_status Completed and step_limit
0.0. -/
theorem finished_plan_exits_before_execution (P : OrchParams)
    (env : Nat → StepEnv) (i : Nat) (rest : List Nat) (st : LoopState)
    (himg : (if i = 0 then (env i).shot1 else st.image2).isSome)
    (hsize : (env i).imageSize.isSome)
    (hfin : finishedCheckB (if plannerSkip st.exec P.err_to_planner_thresh
      then st.plan else (env i).plan) = true) :
    ∃ f : ResultsFile,
      loopGo P env (i :: rest) st = .ok f st.execRan ∧
      f.task_status = some "Completed" ∧ f.step_limit = some 0 := by
  obtain ⟨img, himgE⟩ := Option.isSome_iff_exists.mp himg
  obtain ⟨wh, hwh⟩ := Option.isSome_iff_exists.mp hsize
  refine ⟨save_final_results
    (if (if plannerSkip st.exec P.err_to_planner_thresh then ""
         else pyStripS (env i).planThought) = "" then st.resultsFile
     else some (write_finished_report st.resultsFile
       (if plannerSkip st.exec P.err_to_planner_thresh then ""
        else pyStripS (env i).planThought))) 0, ?_, ?_, ?_⟩
  · simp only [loopGo, himgE, hwh, hfin, if_true]
  · simp [save_final_results]
  · simp [save_final_results]

/-- C1 witness: a planner that answers Finished on step 0. -/
theorem finished_plan_exits_before_execution_witness :
    ∃ f : ResultsFile,
      loopGo ⟨"abs", "vllm", false, 9 / 10, 2⟩
        (fun _ => ⟨some "s1", some (1080, 2340), "th", "Finished",
          ⟨"th", "[1, 2]", "d"⟩, [], some "s2", "S", "", [], []⟩)
        [0] initialLoopState = .ok f initialLoopState.execRan ∧
      f.task_status = some "Completed" ∧ f.step_limit = some 0 :=
  finished_plan_exits_before_execution _ _ 0 [] _ (by rfl) (by rfl) (by rfl)

/-- str.replace leaves a string without occurrences of old unchanged. -/
theorem pyReplaceF_of_not_contains (old new : List Char) :
    ∀ (fuel : Nat) (l : List Char), l.length ≤ fuel →
      containsSub l old = false → pyReplaceF fuel l old new = l := by
  intro fuel
  induction fuel with
  | zero =>
    intro l _ _
    rfl
  | succ f ih =>
    intro l hl hc
    cases l with
    | nil => rfl
    | cons c t =>
      simp only [containsSub, Bool.or_eq_false_iff] at hc
      simp only [pyReplaceF]
      rw [if_neg (by rintro ⟨-, hpre⟩; simp [hc.1] at hpre)]
      rw [ih t (by simpa using Nat.le_of_succ_le_succ hl) hc.2]

/-- str.replace at the top level, same statement. -/
theorem pyReplace_of_not_contains (l old new : List Char)
    (hc : containsSub l old = false) : pyReplace l old new = l :=
  pyReplaceF_of_not_contains old new l.length l le_rfl hc

/-- strip is the identity on a brace-delimited rendering. -/
theorem pyStrip_obj (body : List Char) :
    pyStrip (lbrace :: (body ++ [rbrace])) = lbrace :: (body ++ [rbrace]) := by
  unfold pyStrip
  rw [List.dropWhile_cons_of_neg (by decide)]
  have h2 : (lbrace :: (body ++ [rbrace])).reverse
      = rbrace :: (body.reverse ++ [lbrace]) := by
    simp
  rw [h2, List.dropWhile_cons_of_neg (by decide), ← h2, List.reverse_reverse]

/-- Reading back one hex digit. -/
theorem hexValC_escHex (d : Nat) (hd : d < 16) : hexValC (escHex d) = some d := by
  interval_cases d <;> rfl

/-- String-body parser step: closing quote. -/
theorem parseStrBody_quote (acc rest : List Char) :
    parseStrBody ('"' :: rest) acc = some (acc.reverse, rest) := by
  rw [parseStrBody.eq_def]; simp

/-- String-body parser step: ordinary character. -/
theorem parseStrBody_plain (c : Char) (h1 : ¬c = '"') (h2 : ¬c = '\\')
    (acc rest : List Char) :
    parseStrBody (c :: rest) acc = parseStrBody rest (c :: acc) := by
  rw [parseStrBody.eq_def]; simp [h1, h2]

/-- String-body parser step: simple escape. -/
theorem parseStrBody_esc (e u : Char) (he : ¬e = 'u') (hu : unescChar e = some u)
    (acc rest : List Char) :
    parseStrBody ('\\' :: e :: rest) acc = parseStrBody rest (u :: acc) := by
  rw [parseStrBody.eq_def]; simp [he, hu]

/-- String-body parser step: unicode escape with valid hex digits. -/
theorem parseStrBody_hex (h1 h2 h3 h4 : Char) (v1 v2 v3 v4 : Nat)
    (e1 : hexValC h1 = some v1) (e2 : hexValC h2 = some v2)
    (e3 : hexValC h3 = some v3) (e4 : hexValC h4 = some v4)
    (acc rest : List Char) :
    parseStrBody ('\\' :: 'u' :: h1 :: h2 :: h3 :: h4 :: rest) acc
      = parseStrBody rest (Char.ofNat (((v1 * 16 + v2) * 16 + v3) * 16 + v4) :: acc) := by
  rw [parseStrBody.eq_def]; simp [e1, e2, e3, e4]

/-- The string-body parser inverts the escaper: reading an escaped body up
to the closing quote yields the original characters and the remainder. -/
theorem parseStrBody_escape (s : List Char) : ∀ (acc rest : List Char),
    parseStrBody (escapeChars s ++ '"' :: rest) acc = some (acc.reverse ++ s, rest) := by
  induction s with
  | nil =>
    intro acc rest
    simp [escapeChars, parseStrBody_quote]
  | cons c t ih =>
    intro acc rest
    simp only [escapeChars, List.append_assoc]
    by_cases hc1 : c = '"'
    · subst hc1
      rw [show escChar '"' = ['\\', '"'] from rfl]
      rw [List.cons_append, List.cons_append,
        parseStrBody_esc '"' '"' (by decide) rfl]
      simp [ih]
    · by_cases hc2 : c = '\\'
      · subst hc2
        rw [show escChar '\\' = ['\\', '\\'] from rfl]
        rw [List.cons_append, List.cons_append,
          parseStrBody_esc '\\' '\\' (by decide) rfl]
        simp [ih]
      · by_cases hc3 : c = '\n'
        · subst hc3
          rw [show escChar '\n' = ['\\', 'n'] from rfl]
          rw [List.cons_append, List.cons_append,
            parseStrBody_esc 'n' '\n' (by decide) rfl]
          simp [ih]
        · by_cases hc4 : c = '\r'
          · subst hc4
            rw [show escChar '\r' = ['\\', 'r'] from rfl]
            rw [List.cons_append, List.cons_append,
              parseStrBody_esc 'r' '\r' (by decide) rfl]
            simp [ih]
          · by_cases hc5 : c = '\t'
            · subst hc5
              rw [show escChar '\t' = ['\\', 't'] from rfl]
              rw [List.cons_append, List.cons_append,
                parseStrBody_esc 't' '\t' (by decide) rfl]
              simp [ih]
            · by_cases hc6 : c = Char.ofNat 8
              · subst hc6
                rw [show escChar (Char.ofNat 8) = ['\\', 'b'] from rfl]
                rw [List.cons_append, List.cons_append,
                  parseStrBody_esc 'b' (Char.ofNat 8) (by decide) rfl]
                simp [ih]
              · by_cases hc7 : c = Char.ofNat 12
                · subst hc7
                  rw [show escChar (Char.ofNat 12) = ['\\', 'f'] from rfl]
                  rw [List.cons_append, List.cons_append,
                    parseStrBody_esc 'f' (Char.ofNat 12) (by decide) rfl]
                  simp [ih]
                · by_cases hc8 : c.toNat < 32
                  · rw [show escChar c
                        = ['\\', 'u', '0', '0', escHex (c.toNat / 16), escHex (c.toNat % 16)] by
                      simp [escChar, hc1, hc2, hc3, hc4, hc5, hc6, hc7, hc8]]
                    simp only [List.cons_append]
                    rw [parseStrBody_hex '0' '0' _ _ 0 0 (c.toNat / 16) (c.toNat % 16)
                      rfl rfl (hexValC_escHex _ (by omega))
                      (hexValC_escHex _ (Nat.mod_lt _ (by omega)))]
                    rw [show ((0 * 16 + 0) * 16 + c.toNat / 16) * 16 + c.toNat % 16
                        = c.toNat by omega]
                    rw [Char.ofNat_toNat]
                    simp [ih]
                  · rw [show escChar c = [c] by
                      simp [escChar, hc1, hc2, hc3, hc4, hc5, hc6, hc7, hc8]]
                    simp only [List.cons_append, List.nil_append]
                    rw [parseStrBody_plain c hc1 hc2]
                    simp [ih]

/-- Digit accumulator splits off its tail. -/
theorem digitLoopN_acc (fuel : Nat) : ∀ (n : Nat) (ds : List Char),
    digitLoopN fuel n ds = digitLoopN fuel n [] ++ ds := by
  induction fuel with
  | zero => intro n ds; simp [digitLoopN]
  | succ f ih =>
    intro n ds
    by_cases h : n < 10
    · simp [digitLoopN, h]
    · simp only [digitLoopN, h, if_false]
      rw [ih (n / 10) (digitCharOf (n % 10) :: ds), ih (n / 10) [digitCharOf (n % 10)]]
      simp

/-- The digit loop ignores surplus fuel. -/
theorem digitLoopN_fuel : ∀ (m f1 f2 : Nat), m < f1 → m < f2 →
    ∀ ds, digitLoopN f1 m ds = digitLoopN f2 m ds := by
  intro m
  induction m using Nat.strong_induction_on with
  | _ m ih =>
    intro f1 f2 h1 h2 ds
    cases f1 with
    | zero => omega
    | succ g1 =>
      cases f2 with
      | zero => omega
      | succ g2 =>
        by_cases hm : m < 10
        · simp [digitLoopN, hm]
        · simp only [digitLoopN, hm, if_false]
          exact ih (m / 10) (by omega) g1 g2 (by omega) (by omega) _

/-- Unfolding of the decimal rendering for two-digit-or-more numbers. -/
theorem natDigits_step (n : Nat) (h : 10 ≤ n) :
    natDigits n = natDigits (n / 10) ++ [digitCharOf (n % 10)] := by
  unfold natDigits
  rw [show digitLoopN (n + 1) n [] =
      digitLoopN n (n / 10) [digitCharOf (n % 10)] by
    simp [digitLoopN, Nat.not_lt.mpr h]]
  rw [digitLoopN_fuel (n / 10) n (n / 10 + 1) (by omega) (by omega)]
  exact digitLoopN_acc _ _ _

/-- Single-digit rendering. -/
theorem natDigits_small (n : Nat) (h : n < 10) : natDigits n = [digitCharOf n] := by
  simp [natDigits, digitLoopN, h]

/-- Code of a digit character. -/
theorem digitCharOf_toNat (d : Nat) (hd : d < 10) : (digitCharOf d).toNat = 48 + d := by
  interval_cases d <;> rfl

/-- A digit character is a digit. -/
theorem digitCharOf_isDigit (d : Nat) (hd : d < 10) : (digitCharOf d).isDigit = true := by
  interval_cases d <;> rfl

/-- Every character of a decimal rendering is a digit. -/
theorem natDigits_all_digits (n : Nat) : ∀ c ∈ natDigits n, c.isDigit = true := by
  induction n using Nat.strong_induction_on with
  | _ n ih =>
    by_cases h : n < 10
    · rw [natDigits_small n h]
      intro c hc
      rw [List.mem_singleton] at hc
      subst hc
      exact digitCharOf_isDigit n h
    · rw [natDigits_step n (by omega)]
      intro c hc
      rcases List.mem_append.mp hc with hc | hc
      · exact ih (n / 10) (by omega) c hc
      · rw [List.mem_singleton] at hc
        subst hc
        exact digitCharOf_isDigit _ (Nat.mod_lt _ (by omega))

/-- A decimal rendering is nonempty. -/
theorem natDigits_ne_nil (n : Nat) : natDigits n ≠ [] := by
  by_cases h : n < 10
  · simp [natDigits_small n h]
  · simp [natDigits_step n (by omega)]

/-- Reading the decimal rendering back gives the number. -/
theorem digitsToNat_natDigits (n : Nat) : digitsToNat (natDigits n) = n := by
  induction n using Nat.strong_induction_on with
  | _ n ih =>
    by_cases h : n < 10
    · rw [natDigits_small n h]
      simp [digitsToNat, digitCharOf_toNat n h]
    · rw [natDigits_step n (by omega)]
      have hmod : (digitCharOf (n % 10)).toNat = 48 + n % 10 :=
        digitCharOf_toNat _ (Nat.mod_lt _ (by omega))
      simp only [digitsToNat, List.foldl_append, List.foldl_cons, List.foldl_nil]
      rw [show List.foldl (fun acc c => acc * 10 + (c.toNat - 48)) 0 (natDigits (n / 10))
          = digitsToNat (natDigits (n / 10)) from rfl]
      rw [ih (n / 10) (by omega), hmod]
      omega

/-- spanDigits splits exactly at the first non-digit. -/
theorem spanDigits_append (ds : List Char) (hds : ∀ c ∈ ds, c.isDigit = true)
    (rest : List Char) (hrest : ∀ c ∈ rest.head?, c.isDigit = false) :
    spanDigits (ds ++ rest) = (ds, rest) := by
  induction ds with
  | nil =>
    cases rest with
    | nil => rfl
    | cons c t =>
      have hc : c.isDigit = false := hrest c (by simp)
      simp [spanDigits, hc]
  | cons d tl ih =>
    have hd : d.isDigit = true := hds d (by simp)
    have htl : ∀ c ∈ tl, c.isDigit = true := fun c hc => hds c (by simp [hc])
    simp [spanDigits, hd, ih htl]

/-- The number parser reads back an unsigned integer rendering. -/
theorem parseNumAux_natDigits (n : Nat) (rest : List Char)
    (hrest : ∀ c ∈ rest.head?, c.isDigit = false ∧ ¬c = '.') :
    parseNumAux (natDigits n ++ rest) = some (.jint (n : Int), rest) := by
  have hspan : spanDigits (natDigits n ++ rest) = (natDigits n, rest) :=
    spanDigits_append _ (natDigits_all_digits n) _ (fun c hc => (hrest c hc).1)
  simp only [parseNumAux, hspan]
  rw [if_neg (by simpa using natDigits_ne_nil n)]
  cases rest with
  | nil => simp [digitsToNat_natDigits]
  | cons c t =>
    have hc : ¬c = '.' := (hrest c (by simp)).2
    simp [hc, digitsToNat_natDigits]

/-- The number parser reads back any integer rendering. -/
theorem parseNumber_renderInt (i : Int) (rest : List Char)
    (hrest : ∀ c ∈ rest.head?, c.isDigit = false ∧ ¬c = '.') :
    parseNumber (renderInt i ++ rest) = some (.jint i, rest) := by
  by_cases hi : i < 0
  · rw [show renderInt i = '-' :: natDigits i.natAbs by simp [renderInt, hi]]
    rw [List.cons_append]
    simp only [parseNumber, if_pos rfl, parseNumAux_natDigits i.natAbs rest hrest]
    rw [show -(i.natAbs : Int) = i by omega]
    simp
  · rw [show renderInt i = natDigits i.toNat by simp [renderInt, hi]]
    obtain ⟨c, cs, hcons⟩ := List.exists_cons_of_ne_nil (natDigits_ne_nil i.toNat)
    have hcdig : c.isDigit = true := by
      apply natDigits_all_digits i.toNat
      rw [hcons]; simp
    have hcm : ¬c = '-' := by
      intro h
      subst h
      simp [Char.isDigit] at hcdig
    rw [hcons, List.cons_append]
    simp only [parseNumber, hcm, if_false]
    rw [← List.cons_append, ← hcons, parseNumAux_natDigits i.toNat rest hrest]
    rw [show ((i.toNat : Int)) = i by omega]

/-- The number parser reads back a canonical decimal rendering. -/
theorem parseNumber_renderDec (ip : Nat) (f : List Nat) (hf : f ≠ [])
    (hd : ∀ d ∈ f, d < 10) (rest : List Char)
    (hrest : ∀ c ∈ rest.head?, c.isDigit = false) :
    parseNumber ((natDigits ip ++ '.' :: f.map digitCharOf) ++ rest)
      = some (.jdec ip f, rest) := by
  obtain ⟨c, cs, hcons⟩ := List.exists_cons_of_ne_nil (natDigits_ne_nil ip)
  have hcdig : c.isDigit = true := by
    apply natDigits_all_digits ip
    rw [hcons]; simp
  have hcm : ¬c = '-' := by
    intro h; subst h; simp [Char.isDigit] at hcdig
  have hspan1 : spanDigits (natDigits ip ++ ('.' :: (f.map digitCharOf ++ rest)))
      = (natDigits ip, '.' :: (f.map digitCharOf ++ rest)) :=
    spanDigits_append _ (natDigits_all_digits ip) _ (by intro x hx; simp at hx; subst hx; rfl)
  have hspan2 : spanDigits (f.map digitCharOf ++ rest) = (f.map digitCharOf, rest) := by
    apply spanDigits_append
    · intro x hx
      obtain ⟨d, hdf, rfl⟩ := List.mem_map.mp hx
      exact digitCharOf_isDigit d (hd d hdf)
    · exact hrest
  have hshape : (natDigits ip ++ '.' :: f.map digitCharOf) ++ rest
      = natDigits ip ++ ('.' :: (f.map digitCharOf ++ rest)) := by
    simp
  have hback : (f.map digitCharOf).map (fun ch => ch.toNat - 48) = f := by
    rw [List.map_map]
    apply List.map_congr_left ?_ |>.trans (List.map_id f)
    intro d hdf
    simp [Function.comp, digitCharOf_toNat d (hd d hdf)]
  have hmapne : ¬(List.map digitCharOf f = []) := fun h => hf (by simpa using h)
  rw [hshape, hcons, List.cons_append]
  simp only [parseNumber, hcm, if_false]
  rw [← List.cons_append, ← hcons]
  simp only [parseNumAux, hspan1]
  rw [if_neg (by simpa using natDigits_ne_nil ip)]
  simp only [if_pos rfl, hspan2, hmapne, if_false, hback, digitsToNat_natDigits]
  simp

/-- The open brace is not a quote. -/
theorem lbrace_ne_quote : ¬lbrace = '"' := by decide

/-- Whitespace skipping fixes a list whose head is a digit or one of the
structural characters produced by the renderer. -/
theorem skipJWs_cons_of (c : Char) (t : List Char)
    (h : (c = ' ' || c = '\t' || c = '\n' || c = '\r') = false) :
    skipJWs (c :: t) = c :: t := by
  simp [skipJWs, h]

/-- A digit-or-minus head is untouched by whitespace skipping. -/
theorem skipJWs_num_head (c : Char) (t : List Char)
    (hc : c.isDigit = true ∨ c = '-') :
    skipJWs (c :: t) = c :: t := by
  apply skipJWs_cons_of
  rcases hc with h | h
  · have h48 : 48 ≤ c.toNat ∧ c.toNat ≤ 57 := by
      simpa [Char.isDigit, Char.le_def, decide_eq_true_eq] using h
    simp only [Bool.or_eq_false_iff]
    refine ⟨⟨⟨?_, ?_⟩, ?_⟩, ?_⟩ <;>
      · simp only [decide_eq_false_iff_not]
        rintro rfl
        simp at h48
  · subst h
    decide

/-- The value parser dispatches a digit-or-minus head to the number
parser. -/
theorem parseJValue_number (fuel : Nat) (c : Char) (t : List Char)
    (hc : c.isDigit = true ∨ c = '-') :
    parseJValue (fuel + 1) (c :: t) = parseNumber (c :: t) := by
  have h48 : ¬c = '"' ∧ ¬c = lbrace ∧ ¬c = '[' ∧ ¬c = 't' ∧ ¬c = 'f' ∧ ¬c = 'n' := by
    rcases hc with h | h
    · refine ⟨?_, ?_, ?_, ?_, ?_, ?_⟩ <;> (rintro rfl; simp [Char.isDigit, lbrace] at h)
    · subst h; decide
  obtain ⟨h1, h2, h3, h4, h5, h6⟩ := h48
  have hpt : List.isPrefixOf "true".data (c :: t) = false := by
    simp only [show "true".data = 't' :: "rue".data from rfl, List.isPrefixOf,
      Bool.and_eq_false_iff]
    left
    simpa using fun h => h4 h.symm
  have hpf : List.isPrefixOf "false".data (c :: t) = false := by
    simp only [show "false".data = 'f' :: "alse".data from rfl, List.isPrefixOf,
      Bool.and_eq_false_iff]
    left
    simpa using fun h => h5 h.symm
  have hpn : List.isPrefixOf "null".data (c :: t) = false := by
    simp only [show "null".data = 'n' :: "ull".data from rfl, List.isPrefixOf,
      Bool.and_eq_false_iff]
    left
    simpa using fun h => h6 h.symm
  rw [parseJValue.eq_def]
  simp [h1, h2, h3, hpt, hpf, hpn]

/-- The value parser reads back a rendered string. -/
theorem parseJValue_render_str (fuel : Nat) (s rest : List Char) :
    parseJValue (fuel + 1) (renderJ (.jstr s) ++ rest) = some (.jstr s, rest) := by
  rw [show renderJ (.jstr s) = '"' :: (escapeChars s ++ ['"']) from rfl]
  rw [show ('"' :: (escapeChars s ++ ['"'])) ++ rest
      = '"' :: (escapeChars s ++ '"' :: rest) by simp]
  rw [parseJValue.eq_def]
  simp [parseStrBody_escape]

/-- A rendered integer has a digit-or-minus head. -/
theorem renderInt_head (i : Int) :
    ∃ c cs, renderInt i = c :: cs ∧ (c.isDigit = true ∨ c = '-') := by
  by_cases hi : i < 0
  · exact ⟨'-', natDigits i.natAbs, by simp [renderInt, hi], Or.inr rfl⟩
  · obtain ⟨c, cs, hcons⟩ := List.exists_cons_of_ne_nil (natDigits_ne_nil i.toNat)
    refine ⟨c, cs, by simp [renderInt, hi, hcons], Or.inl ?_⟩
    apply natDigits_all_digits i.toNat
    rw [hcons]; simp

/-- jstr values parse back flatly. -/
theorem flat_jstr (s : List Char) : flatParses (.jstr s) := by
  constructor
  · intro X
    rw [show renderJ (.jstr s) ++ X = '"' :: (escapeChars s ++ '"' :: X) by simp [renderJ]]
    exact skipJWs_cons_of _ _ (by decide)
  · intro fuel rest _
    exact parseJValue_render_str (fuel + 3) s rest

/-- After a rendered value inside an action object only separators follow,
so the continuation head is never a digit, a dot, or a minus. -/
theorem sepHead_facts (rest : List Char) (hsep : sepHead rest) :
    ∀ c ∈ rest.head?, c.isDigit = false ∧ ¬c = '.' := by
  intro c hc
  cases rest with
  | nil => simp at hc
  | cons r t =>
    simp only [List.head?_cons, Option.mem_def, Option.some.injEq] at hc
    subst hc
    rcases hsep with h | h | h <;> subst h <;> exact ⟨by decide, by decide⟩

/-- jint values parse back flatly. -/
theorem flat_jint (i : Int) : flatParses (.jint i) := by
  constructor
  · intro X
    obtain ⟨c, cs, hcons, hc⟩ := renderInt_head i
    rw [show renderJ (.jint i) = renderInt i from rfl, hcons, List.cons_append]
    exact skipJWs_num_head c _ hc
  intro fuel rest hsep
  obtain ⟨c, cs, hcons, hc⟩ := renderInt_head i
  rw [show renderJ (.jint i) = renderInt i from rfl, hcons, List.cons_append,
    show fuel + 4 = (fuel + 3) + 1 from rfl, parseJValue_number (fuel + 3) c _ hc,
    ← List.cons_append, ← hcons]
  exact parseNumber_renderInt i rest (sepHead_facts rest hsep)

/-- jdec values parse back flatly. -/
theorem flat_jdec (ip : Nat) (f : List Nat) (hf : f ≠ []) (hd : ∀ d ∈ f, d < 10) :
    flatParses (.jdec ip f) := by
  constructor
  · intro X
    obtain ⟨c, cs, hcons⟩ := List.exists_cons_of_ne_nil (natDigits_ne_nil ip)
    have hcd : c.isDigit = true := by
      apply natDigits_all_digits ip
      rw [hcons]; simp
    rw [show renderJ (.jdec ip f) ++ X = c :: (cs ++ '.' :: f.map digitCharOf ++ X) by
      simp [renderJ, hcons]]
    exact skipJWs_num_head c _ (Or.inl hcd)
  intro fuel rest hsep
  obtain ⟨c, cs, hcons⟩ := List.exists_cons_of_ne_nil (natDigits_ne_nil ip)
  have hcd : c.isDigit = true := by
    apply natDigits_all_digits ip
    rw [hcons]; simp
  rw [show renderJ (.jdec ip f) = natDigits ip ++ '.' :: f.map digitCharOf from rfl]
  rw [show (natDigits ip ++ '.' :: f.map digitCharOf) ++ rest
      = c :: (cs ++ '.' :: f.map digitCharOf ++ rest) by rw [hcons]; simp]
  rw [show fuel + 4 = (fuel + 3) + 1 from rfl, parseJValue_number (fuel + 3) c _ (Or.inl hcd)]
  rw [show c :: (cs ++ '.' :: f.map digitCharOf ++ rest)
      = (natDigits ip ++ '.' :: f.map digitCharOf) ++ rest by rw [hcons]; simp]
  exact parseNumber_renderDec ip f hf hd rest
    (fun c hc => (sepHead_facts rest hsep c hc).1)

/-- Reading one rendered integer item followed by the closing bracket. -/
theorem parseJItems_int_close (fuel : Nat) (i : Int) (rest : List Char) :
    parseJItems (fuel + 2) (renderInt i ++ ']' :: rest)
      = some (.jarr (.acons (.jint i) .anil), rest) := by
  obtain ⟨c, cs, hcons, hc⟩ := renderInt_head i
  have hnc : ¬c = ']' := by
    rcases hc with h | h
    · rintro rfl; simp [Char.isDigit] at h
    · subst h; decide
  rw [hcons, List.cons_append, show fuel + 2 = (fuel + 1) + 1 from rfl,
    parseJItems.eq_def]
  simp only [hnc, if_false]
  rw [parseJValue_number fuel c _ hc, ← List.cons_append, ← hcons,
    parseNumber_renderInt i (']' :: rest) (by intro x hx; simp at hx; subst hx; exact ⟨by decide, by decide⟩)]
  simp only []
  rw [skipJWs_cons_of ']' rest (by decide)]
  simp

/-- jarr of two jint entries (a rendered coordinate pair) parses back
flatly. -/
theorem flat_intPair (x y : Int) :
    flatParses (.jarr (.acons (.jint x) (.acons (.jint y) .anil))) := by
  have hrender : ∀ X : List Char,
      renderJ (.jarr (.acons (.jint x) (.acons (.jint y) .anil))) ++ X
      = '[' :: (renderInt x ++ ',' :: ' ' :: (renderInt y ++ ']' :: X)) := by
    intro X
    rw [show renderJ (.jarr (.acons (.jint x) (.acons (.jint y) .anil)))
        = '[' :: (renderItems (.acons (.jint x) (.acons (.jint y) .anil)) ++ [']']) from rfl]
    rw [show renderItems (.acons (.jint x) (.acons (.jint y) .anil))
        = (renderInt x ++ [',', ' ']) ++ (renderInt y ++ [] ++ []) by
      simp only [renderItems, arrSep]
      simp
      rfl]
    simp
  constructor
  · intro X
    rw [hrender X]
    exact skipJWs_cons_of _ _ (by decide)
  · intro fuel rest _
    obtain ⟨cx, csx, hx, hcx⟩ := renderInt_head x
    have hnx : ¬cx = ']' := by
      rcases hcx with h | h
      · rintro rfl; simp [Char.isDigit] at h
      · subst h; decide
    rw [hrender rest, show fuel + 4 = (fuel + 3) + 1 from rfl, parseJValue.eq_def]
    simp only [show ¬('[' : Char) = '"' by decide, if_false,
      show ¬('[' : Char) = lbrace by decide,
      show (('[' : Char) = '[') = True by simp, if_true]
    rw [show skipJWs (renderInt x ++ ',' :: ' ' :: (renderInt y ++ ']' :: rest))
        = renderInt x ++ ',' :: ' ' :: (renderInt y ++ ']' :: rest) by
      rw [hx, List.cons_append]; exact skipJWs_num_head cx _ hcx]
    rw [hx, List.cons_append, show fuel + 3 = (fuel + 2) + 1 from rfl,
      parseJItems.eq_def]
    simp only [hnx, if_false]
    rw [parseJValue_number (fuel + 1) cx _ hcx, ← List.cons_append, ← hx,
      parseNumber_renderInt x (',' :: ' ' :: (renderInt y ++ ']' :: rest))
        (by intro z hz; simp at hz; subst hz; exact ⟨by decide, by decide⟩)]
    simp only []
    rw [skipJWs_cons_of ',' _ (by decide)]
    simp only [show ((',' : Char) = ',') = True by simp, if_true]
    rw [show skipJWs (' ' :: (renderInt y ++ ']' :: rest))
        = renderInt y ++ ']' :: rest by
      rw [show skipJWs (' ' :: (renderInt y ++ ']' :: rest))
          = skipJWs (renderInt y ++ ']' :: rest) from rfl]
      obtain ⟨cy, csy, hy, hcy⟩ := renderInt_head y
      rw [hy, List.cons_append]
      exact skipJWs_num_head cy _ hcy]
    rw [parseJItems_int_close fuel y rest]

/-- The field parser reads back a rendered nonempty or empty field list up
to the closing brace. -/
theorem parseJFields_render_aux (n : Nat) : ∀ (fs : JFields), countF fs ≤ n →
    ∀ (fuel : Nat) (rest : List Char), FieldsFlat fs →
    parseJFields (fuel + 5 * countF fs + 1) (renderFields fs ++ rbrace :: rest)
      = some (.jobj fs, rest) := by
  induction n with
  | zero =>
    intro fs hn fuel rest _
    cases fs with
    | fnil =>
      rw [show renderFields .fnil ++ rbrace :: rest = rbrace :: rest by simp [renderFields]]
      rw [show fuel + 5 * countF .fnil + 1 = fuel + 1 by simp [countF], parseJFields.eq_def]
      simp
    | fcons k v tl => simp [countF] at hn
  | succ m ihn =>
    intro fs hn fuel rest hflat₀
    cases fs with
    | fnil =>
      rw [show renderFields .fnil ++ rbrace :: rest = rbrace :: rest by simp [renderFields]]
      rw [show fuel + 5 * countF .fnil + 1 = fuel + 1 by simp [countF], parseJFields.eq_def]
      simp
    | fcons k v tl =>
      have ih : ∀ (fuel : Nat) (rest : List Char), FieldsFlat tl →
          parseJFields (fuel + 5 * countF tl + 1) (renderFields tl ++ rbrace :: rest)
            = some (.jobj tl, rest) :=
        fun fuel rest h => ihn tl (by simp [countF] at hn; omega) fuel rest h
      have hflat : FieldsFlat (.fcons k v tl) := hflat₀
      obtain ⟨hv, htl⟩ := hflat
      have hG : fuel + 5 * countF (.fcons k v tl) + 1 = (fuel + 5 * countF tl + 5) + 1 := by
        simp [countF]; ring
      have hshape : renderFields (.fcons k v tl) ++ rbrace :: rest
          = '"' :: (escapeChars k ++ '"' ::
              (':' :: ' ' :: (renderJ v ++ (fieldSep tl ++ (renderFields tl ++ rbrace :: rest))))) := by
        rw [show renderFields (.fcons k v tl)
            = ('"' :: (escapeChars k ++ '"' :: ':' :: ' ' :: renderJ v))
              ++ fieldSep tl ++ renderFields tl from rfl]
        simp
      rw [hshape, hG, parseJFields.eq_def]
      simp only [show ¬('"' : Char) = rbrace by decide, if_false,
        show (('"' : Char) = '"') = True by simp, if_true]
      rw [show parseStrBody (escapeChars k ++ '"' ::
          (':' :: ' ' :: (renderJ v ++ (fieldSep tl ++ (renderFields tl ++ rbrace :: rest))))) []
          = some (k, ':' :: ' ' :: (renderJ v ++ (fieldSep tl ++ (renderFields tl ++ rbrace :: rest)))) by
        rw [parseStrBody_escape]; simp]
      simp only []
      rw [skipJWs_cons_of ':' _ (by decide)]
      simp only [show ((':' : Char) = ':') = True by simp, if_true]
      rw [show skipJWs (' ' :: (renderJ v ++ (fieldSep tl ++ (renderFields tl ++ rbrace :: rest))))
          = renderJ v ++ (fieldSep tl ++ (renderFields tl ++ rbrace :: rest)) by
        rw [show skipJWs (' ' :: (renderJ v ++ (fieldSep tl ++ (renderFields tl ++ rbrace :: rest))))
            = skipJWs (renderJ v ++ (fieldSep tl ++ (renderFields tl ++ rbrace :: rest))) from rfl]
        exact hv.1 _]
      cases tl with
      | fnil =>
        rw [show fieldSep .fnil ++ (renderFields .fnil ++ rbrace :: rest)
            = rbrace :: rest by simp [fieldSep, renderFields]]
        rw [show (fuel + 5 * countF .fnil + 5) = (fuel + 1) + 4 by simp [countF]]
        rw [hv.2 (fuel + 1) (rbrace :: rest) (Or.inr (Or.inl rfl))]
        simp only []
        rw [skipJWs_cons_of rbrace _ (by decide)]
        simp [show ¬(rbrace = ',') by decide]
      | fcons k2 v2 tl2 =>
        rw [show fieldSep (.fcons k2 v2 tl2) ++ (renderFields (.fcons k2 v2 tl2) ++ rbrace :: rest)
            = ',' :: ' ' :: (renderFields (.fcons k2 v2 tl2) ++ rbrace :: rest) by
          simp [fieldSep]]
        rw [show (fuel + 5 * countF (.fcons k2 v2 tl2) + 5) = ((fuel + 5 * countF (.fcons k2 v2 tl2) + 1)) + 4 by ring]
        rw [hv.2 _ (',' :: ' ' :: (renderFields (.fcons k2 v2 tl2) ++ rbrace :: rest)) (Or.inl rfl)]
        simp only []
        rw [skipJWs_cons_of ',' _ (by decide)]
        simp only [show ((',' : Char) = ',') = True by simp, if_true]
        rw [show skipJWs (' ' :: (renderFields (.fcons k2 v2 tl2) ++ rbrace :: rest))
            = renderFields (.fcons k2 v2 tl2) ++ rbrace :: rest by
          rw [show skipJWs (' ' :: (renderFields (.fcons k2 v2 tl2) ++ rbrace :: rest))
              = skipJWs (renderFields (.fcons k2 v2 tl2) ++ rbrace :: rest) from rfl]
          rw [show renderFields (.fcons k2 v2 tl2) ++ rbrace :: rest
              = '"' :: ((escapeChars k2 ++ '"' :: ':' :: ' ' :: renderJ v2)
                  ++ fieldSep tl2 ++ renderFields tl2 ++ rbrace :: rest) by
            rw [show renderFields (.fcons k2 v2 tl2)
                = ('"' :: (escapeChars k2 ++ '"' :: ':' :: ' ' :: renderJ v2))
                  ++ fieldSep tl2 ++ renderFields tl2 from rfl]
            simp]
          exact skipJWs_cons_of _ _ (by decide)]
        rw [show (fuel + 5 * countF (.fcons k2 v2 tl2) + 1) + 4
            = (fuel + 4) + 5 * countF (.fcons k2 v2 tl2) + 1 by ring]
        rw [ih (fuel + 4) rest htl]

/-- The field parser reads back any rendered flat field list. -/
theorem parseJFields_render (fs : JFields) (fuel : Nat) (rest : List Char)
    (hfs : FieldsFlat fs) :
    parseJFields (fuel + 5 * countF fs + 1) (renderFields fs ++ rbrace :: rest)
      = some (.jobj fs, rest) :=
  parseJFields_render_aux (countF fs) fs le_rfl fuel rest hfs

/-- The value parser reads back a rendered object. -/
theorem parseJValue_render_obj (fs : JFields) (fuel : Nat) (rest : List Char)
    (hfs : FieldsFlat fs) :
    parseJValue (fuel + 5 * countF fs + 2) (renderJ (.jobj fs) ++ rest)
      = some (.jobj fs, rest) := by
  rw [show renderJ (.jobj fs) ++ rest = lbrace :: (renderFields fs ++ rbrace :: rest) by
    rw [show renderJ (.jobj fs) = lbrace :: (renderFields fs ++ [rbrace]) from rfl]
    simp]
  rw [show fuel + 5 * countF fs + 2 = (fuel + 5 * countF fs + 1) + 1 by ring,
    parseJValue.eq_def]
  simp only [lbrace_ne_quote, if_false, if_pos rfl]
  rw [show skipJWs (renderFields fs ++ rbrace :: rest) = renderFields fs ++ rbrace :: rest by
    cases fs with
    | fnil =>
      rw [show renderFields .fnil ++ rbrace :: rest = rbrace :: rest by simp [renderFields]]
      exact skipJWs_cons_of _ _ (by decide)
    | fcons k v tl =>
      rw [show renderFields (.fcons k v tl) ++ rbrace :: rest
          = '"' :: ((escapeChars k ++ '"' :: ':' :: ' ' :: renderJ v)
              ++ fieldSep tl ++ renderFields tl ++ rbrace :: rest) by
        rw [show renderFields (.fcons k v tl)
            = ('"' :: (escapeChars k ++ '"' :: ':' :: ' ' :: renderJ v))
              ++ fieldSep tl ++ renderFields tl from rfl]
        simp]
      exact skipJWs_cons_of _ _ (by decide)]
  exact parseJFields_render fs fuel rest hfs

/-- Every rendering is nonempty. -/
theorem renderJ_length_pos (v : JValue) : 1 ≤ (renderJ v).length := by
  cases v with
  | jnull => decide
  | jbool b => cases b <;> decide
  | jint i =>
    rw [show renderJ (.jint i) = renderInt i from rfl]
    by_cases hi : i < 0
    · simp [renderInt, hi]
    · rw [show renderInt i = natDigits i.toNat by simp [renderInt, hi]]
      exact List.length_pos.mpr (natDigits_ne_nil _)
  | jdec ip f =>
    rw [show renderJ (.jdec ip f) = natDigits ip ++ '.' :: f.map digitCharOf from rfl]
    simp
    omega
  | jstr s => simp [show renderJ (.jstr s) = '"' :: (escapeChars s ++ ['"']) from rfl]
  | jarr items =>
    simp [show renderJ (.jarr items) = '[' :: (renderItems items ++ [']']) from rfl]
  | jobj fs =>
    simp [show renderJ (.jobj fs) = lbrace :: (renderFields fs ++ [rbrace]) from rfl]

/-- Each rendered field takes at least five characters. -/
theorem renderFields_len_aux (n : Nat) : ∀ fs : JFields, countF fs ≤ n →
    5 * countF fs ≤ (renderFields fs).length := by
  induction n with
  | zero =>
    intro fs hn
    cases fs with
    | fnil => simp [countF]
    | fcons k v tl => simp [countF] at hn
  | succ m ih =>
    intro fs hn
    cases fs with
    | fnil => simp [countF]
    | fcons k v tl =>
      have h1 := ih tl (by simp [countF] at hn; omega)
      have h2 := renderJ_length_pos v
      rw [show renderFields (.fcons k v tl)
          = ('"' :: (escapeChars k ++ '"' :: ':' :: ' ' :: renderJ v))
            ++ fieldSep tl ++ renderFields tl from rfl]
      simp only [countF, List.length_append, List.length_cons]
      omega

/-- json.loads recovers a rendered flat object. -/
theorem jsonLoads_render_obj (fs : JFields) (hfs : FieldsFlat fs) :
    jsonLoads (renderJ (.jobj fs)) = some (.jobj fs) := by
  have hflen := renderFields_len_aux (countF fs) fs le_rfl
  have hlen : 5 * countF fs + 1 ≤ (renderJ (.jobj fs)).length := by
    rw [show renderJ (.jobj fs) = lbrace :: (renderFields fs ++ [rbrace]) from rfl]
    simp only [List.length_cons, List.length_append, List.length_singleton]
    omega
  obtain ⟨m, hm⟩ : ∃ m, (renderJ (.jobj fs)).length + 1 = m + 5 * countF fs + 2 :=
    ⟨(renderJ (.jobj fs)).length - 5 * countF fs - 1, by omega⟩
  have hp := parseJValue_render_obj fs m [] hfs
  rw [List.append_nil] at hp
  unfold jsonLoads
  rw [show skipJWs (renderJ (.jobj fs)) = renderJ (.jobj fs) by
    rw [show renderJ (.jobj fs) = lbrace :: (renderFields fs ++ [rbrace]) from rfl]
    exact skipJWs_cons_of _ _ (by decide)]
  rw [hm, hp]
  simp [skipJWs]

/-- parse_action_string recovers a rendered flat object when the rendering
contains neither code fences nor the substring json. -/
theorem parse_action_string_render (fs : JFields) (hfs : FieldsFlat fs)
    (hjson : containsSub (renderJ (.jobj fs)) "json".data = false)
    (hticks : containsSub (renderJ (.jobj fs)) "```".data = false) :
    parse_action_string (String.mk (renderJ (.jobj fs))) = some (.jobj fs) := by
  unfold parse_action_string
  rw [show (String.mk (renderJ (.jobj fs))).data = renderJ (.jobj fs) from rfl]
  rw [pyReplace_of_not_contains _ _ _ hticks, pyReplace_of_not_contains _ _ _ hjson]
  rw [show pyStrip (renderJ (.jobj fs)) = renderJ (.jobj fs) by
    rw [show renderJ (.jobj fs) = lbrace :: (renderFields fs ++ [rbrace]) from rfl]
    exact pyStrip_obj _]
  exact jsonLoads_render_obj fs hfs

/-- A well-formed numeric field value parses back flatly. -/
theorem numWF_flat (d : JValue) (hd : numWF d) : flatParses d := by
  cases d with
  | jint i => exact flat_jint i
  | jdec ip f =>
    simp only [numWF, decWF] at hd
    exact flat_jdec ip f hd.1 hd.2.1
  | jnull => simp [numWF] at hd
  | jbool b => simp [numWF] at hd
  | jstr s => simp [numWF] at hd
  | jarr l => simp [numWF] at hd
  | jobj fs => simp [numWF] at hd

/-- C9 counterexample: serializing the type action whose text field is the
string json and parsing it back yields a different action object - the
cleaner deletes the substring json from the payload - so parse after
serialize is not a fixpoint on arbitrary string content. -/
theorem parse_serialize_json_text_counterexample :
    parse_action_string (String.mk (renderJ (typeObj "json".data)))
      = some (typeObj "".data) ∧
    typeObj "".data ≠ typeObj "json".data := by
  refine ⟨by rfl, ?_⟩
  intro h
  simp [typeObj, TYPE] at h

/-- C9 amended: for every defined action variant, parsing the serialized
JSON text recovers the same action object, provided the serialized text
contains no occurrence of the substrings json or three backticks (which
parse_action_string deletes); in particular this holds whenever no string
field contains them. -/
theorem action_parse_serialize_fixpoint (v : JValue) (hv : isActionVariant v)
    (hjson : containsSub (renderJ v) "json".data = false)
    (hticks : containsSub (renderJ v) "```".data = false) :
    parse_action_string (String.mk (renderJ v)) = some v := by
  rcases hv with ⟨t, rfl⟩ | ⟨x, y, rfl⟩ | ⟨m, rfl⟩ | ⟨t, rfl⟩ | ⟨n, rfl⟩ | rfl |
    ⟨b, rfl⟩ | ⟨x1, y1, x2, y2, d, hd, rfl⟩ | ⟨m, dir, ds, du, hds, hdu, rfl⟩
  · exact parse_action_string_render _ ⟨flat_jstr _, flat_jstr _, trivial⟩ hjson hticks
  · exact parse_action_string_render _ ⟨flat_jstr _, flat_intPair x y, trivial⟩ hjson hticks
  · exact parse_action_string_render _ ⟨flat_jstr _, flat_jstr _, trivial⟩ hjson hticks
  · exact parse_action_string_render _ ⟨flat_jstr _, flat_jstr _, trivial⟩ hjson hticks
  · exact parse_action_string_render _ ⟨flat_jstr _, flat_jint _, trivial⟩ hjson hticks
  · exact parse_action_string_render _ ⟨flat_jstr _, trivial⟩ hjson hticks
  · exact parse_action_string_render _ ⟨flat_jstr _, flat_jstr _, trivial⟩ hjson hticks
  · exact parse_action_string_render _
      ⟨flat_jstr _, flat_intPair x1 y1, flat_intPair x2 y2, numWF_flat d hd, trivial⟩
      hjson hticks
  · exact parse_action_string_render _
      ⟨flat_jstr _, flat_jstr _, flat_jstr _, numWF_flat ds hds, numWF_flat du hdu, trivial⟩
      hjson hticks

/-- C9 amended witness: a concrete type action with benign text. -/
theorem action_parse_serialize_fixpoint_witness :
    parse_action_string (String.mk (renderJ (typeObj "hello world".data)))
      = some (typeObj "hello world".data) :=
  action_parse_serialize_fixpoint _
    (Or.inr (Or.inr (Or.inr (Or.inl ⟨"hello world".data, rfl⟩))))
    (by rfl) (by rfl)

end ScenAgent
